import Mathlib

/-!
Shallow embedding of the `vibecontrols` control/definition library
(`src/sources/vibecontrols/controls/{boolean,text,interval,options,array}.py`
and `src/sources/vibecontrols/exceptions.py`).

Modelling conventions:
* Python dynamic values are a deep-embedded universe `Value`.  Python's
  numeric tower is collapsed to `ℚ` (`int`/`float` both become `vNum`);
  `bool` is a separate constructor but — as in Python, where `bool` is a
  subclass of `int` — it passes `isinstance(value, (int, float))` checks
  and compares equal to the corresponding number.  Python `list` and
  `tuple` are distinguished (`vList` / `vTuple`) because they are not
  `==`-equal to each other and differ in hashability.
* Fallible Python code (raising exceptions) is embedded as
  `Except Err α`; each exception class of `exceptions.py` becomes an
  `Err` constructor carrying the keyword arguments used at its raise
  sites.  Uncaught builtin `TypeError` / `ValueError` paths are
  `pyTypeError` / `pyValueError`.
* Floating-point arithmetic is modelled exactly over `ℚ`; Python's
  `round` (banker's rounding, round-half-to-even) is `pyRound`.
-/

inductive Value : Type where
  | vBool (b : Bool)
  | vNum (q : ℚ)
  | vStr (s : String)
  | vList (xs : List Value)
  | vTuple (xs : List Value)
  deriving Repr

/-- Embodies the source’s `isinstance(value, (int, float))` — true for `bool` as well, since
Python's `bool` is a subclass of `int`; yields the numeric value. -/
def Value.asNum : Value → Option ℚ
  | .vBool b => some (if b then 1 else 0)
  | .vNum q => some q
  | _ => none

/-- Embodies the source’s `isinstance(value, collections.abc.Sequence)` — strings, lists and
tuples are sequences; a string is a sequence of one-character strings. -/
def Value.asSeq : Value → Option (List Value)
  | .vStr s => some (s.toList.map (fun c => .vStr (String.mk [c])))
  | .vList xs => some xs
  | .vTuple xs => some xs
  | _ => none

mutual

/-- Python `==` on the embedded universe: numbers and booleans compare
across kinds (`True == 1`, `False == 0.0`), strings by content,
lists/tuples elementwise within their own kind (a list is never equal
to a tuple). -/
def pyEq : Value → Value → Bool
  | .vBool a, .vBool b => a == b
  | .vBool a, .vNum q => (if a then (1 : ℚ) else 0) == q
  | .vNum q, .vBool b => q == (if b then (1 : ℚ) else 0)
  | .vNum p, .vNum q => p == q
  | .vStr s, .vStr t => s == t
  | .vList xs, .vList ys => pyEqList xs ys
  | .vTuple xs, .vTuple ys => pyEqList xs ys
  | _, _ => false

def pyEqList : List Value → List Value → Bool
  | [], [] => true
  | x :: xs, y :: ys => pyEq x y && pyEqList xs ys
  | _, _ => false

end

mutual

/-- Python hashability: scalars and strings are hashable, lists are
not, tuples are hashable when all of their members are. -/
def pyHashable : Value → Bool
  | .vBool _ => true
  | .vNum _ => true
  | .vStr _ => true
  | .vList _ => false
  | .vTuple xs => pyHashableList xs

def pyHashableList : List Value → Bool
  | [] => true
  | x :: xs => pyHashable x && pyHashableList xs

end

/-- Python membership `value in seq` (by `==`). -/
def pyMem (v : Value) (xs : List Value) : Bool :=
  xs.any (fun c => pyEq v c)

/-- Embodies the source’s `len(xs) != len(set(xs))`: some member is `==`-equal to an earlier
member. -/
def hasPyDup : List Value → Bool
  | [] => false
  | x :: xs => xs.any (fun y => pyEq y x) || hasPyDup xs

/-- Python `round` on an exact rational: round half to even. -/
def pyRound (q : ℚ) : ℤ :=
  let f := ⌊q⌋
  let r := q - (f : ℚ)
  if r < 1/2 then f
  else if 1/2 < r then f + 1
  else if Even f then f else f + 1

/-- Exceptions of `exceptions.py`, with the keyword arguments used at
the raise sites of the five control modules. -/
inductive Err : Type where
  | definitionInvalidity (parameter issue : String) (detail : Option String)
  | controlInvalidity (message : String)
  | typeInvalidity (expected : String)
  | sizeConstraintViolation
      (minimum maximum : Option ℤ) (actual : ℤ) (label : String)
  | boundsConstraintViolation (minimum maximum actual : ℚ)
  | stepConstraintViolation (step minimum : ℚ)
  | uniquenessConstraintViolation (index : Option ℕ) (hashable : Bool)
  | selectionConstraintViolation (value : Value)
  | cycleOperationFailure
  | incrementOperationFailure (operation : String)
  | elementInvalidity (index : ℕ) (cause : Err)
  | indexOutOfRange (index : ℤ) (length : ℕ) (operation : String)
  | invalidPermutation (expectedLength : ℕ) (actualLength : Option ℕ)
  | pyTypeError
  | pyValueError
  deriving Repr

/-- Membership in the `ControlInvalidity` branch of the exception
hierarchy (caught by `except ControlInvalidity` handlers).  The
operation failures and `DefinitionInvalidity` are outside it. -/
def Err.isControlInvalidity : Err → Bool
  | .controlInvalidity _ => true
  | .typeInvalidity _ => true
  | .sizeConstraintViolation _ _ _ _ => true
  | .boundsConstraintViolation _ _ _ => true
  | .stepConstraintViolation _ _ => true
  | .uniquenessConstraintViolation _ _ => true
  | .selectionConstraintViolation _ => true
  | .elementInvalidity _ _ => true
  | .indexOutOfRange _ _ _ => true
  | .invalidPermutation _ _ => true
  | _ => false

namespace Vibecontrols

/-! ### Text (`controls/text.py`) -/

/-- Embodies the source’s `TextDefinition` constraint parameters (hints are inert metadata and
are not modelled; `validation_message` defaults to
"Value must be a string" at call sites). -/
structure TextDefinition : Type where
  default : String
  count_min : Option ℤ
  count_max : Option ℤ
  validation_message : String
  deriving Repr

/-- Embodies the source’s `count < count_min` when a minimum is configured. -/
def belowMin (bound : Option ℤ) (count : ℤ) : Bool :=
  match bound with
  | some m => count < m
  | none => false

/-- Embodies the source’s `count > count_max` when a maximum is configured. -/
def aboveMax (bound : Option ℤ) (count : ℤ) : Bool :=
  match bound with
  | some m => m < count
  | none => false

/-- A configured bound that is itself negative. -/
def negBound (bound : Option ℤ) : Bool :=
  match bound with
  | some m => m < 0
  | none => false

/-- Embodies the source’s `TextDefinition.__post_init__`: bound sanity checks only — the
default string is never validated against the count bounds. -/
def TextDefinition.make (default : String) (count_min count_max : Option ℤ)
    (validation_message : String) : Except Err TextDefinition :=
  if negBound count_min then
    .error (.definitionInvalidity "count_min" "cannot be negative" none)
  else if negBound count_max then
    .error (.definitionInvalidity "count_max" "cannot be negative" none)
  else
    match count_min, count_max with
    | some mn, some mx =>
      if mx < mn then
        .error (.definitionInvalidity "count_min" "cannot exceed"
          (some "maximum count"))
      else .ok ⟨default, count_min, count_max, validation_message⟩
    | _, _ => .ok ⟨default, count_min, count_max, validation_message⟩

/-- Embodies the source’s `TextDefinition.validate_value`, with its result viewed at its
Python type `str`. -/
def TextDefinition.validateStr (d : TextDefinition) (value : Value) :
    Except Err String :=
  match value with
  | .vStr s =>
    let count : ℤ := (s.length : ℤ)
    if belowMin d.count_min count then
      .error (.sizeConstraintViolation d.count_min d.count_max count
        "Text character count")
    else if aboveMax d.count_max count then
      .error (.sizeConstraintViolation d.count_min d.count_max count
        "Text character count")
    else .ok s
  | _ => .error (.controlInvalidity d.validation_message)

/-- Embodies the source’s `TextDefinition.validate_value`. -/
def TextDefinition.validate_value (d : TextDefinition) (value : Value) :
    Except Err Value :=
  (Value.vStr ·) <$> d.validateStr value

/-- Embodies the source’s `Text` control state. -/
structure Text : Type where
  definition : TextDefinition
  current : String
  deriving Repr

/-- Embodies the source’s `TextDefinition.produce_control`: with an absent initial the stored
default is used *without* validation. -/
def TextDefinition.produce_control (d : TextDefinition)
    (initial : Option Value) : Except Err Text :=
  match initial with
  | none => .ok ⟨d, d.default⟩
  | some v =>
    match d.validateStr v with
    | .ok validated => .ok ⟨d, validated⟩
    | .error e => .error e

/-- Embodies the source’s `Text.copy`. -/
def Text.copy (c : Text) (new_value : Value) : Except Err Text :=
  match c.definition.validateStr new_value with
  | .ok validated => .ok ⟨c.definition, validated⟩
  | .error e => .error e

/-- Embodies the source’s `Text.clear` — `self.copy('')`. -/
def Text.clear (c : Text) : Except Err Text :=
  c.copy (.vStr "")

/-- Embodies the source’s `Text.serialize` (identity `serialize_value`). -/
def Text.serialize (c : Text) : Value :=
  .vStr c.current

/-! ### Boolean (`controls/boolean.py`) -/

/-- Embodies the source’s `BooleanDefinition` — no `__post_init__`; `default` is annotated
`bool`. -/
structure BooleanDefinition : Type where
  default : Bool
  validation_message : String
  deriving Repr

/-- Embodies the source’s `BooleanDefinition.validate_value` — strict `isinstance(value, bool)`
check; numbers are rejected.  Result viewed at Python type `bool`. -/
def BooleanDefinition.validateBool (d : BooleanDefinition) (value : Value) :
    Except Err Bool :=
  match value with
  | .vBool b => .ok b
  | _ => .error (.controlInvalidity d.validation_message)

/-- Embodies the source’s `BooleanDefinition.validate_value`. -/
def BooleanDefinition.validate_value (d : BooleanDefinition) (value : Value) :
    Except Err Value :=
  (Value.vBool ·) <$> d.validateBool value

/-- Embodies the source’s `Boolean` control state. -/
structure Boolean : Type where
  definition : BooleanDefinition
  current : Bool
  deriving Repr

/-- Embodies the source’s `BooleanDefinition.produce_control`. -/
def BooleanDefinition.produce_control (d : BooleanDefinition)
    (initial : Option Value) : Except Err Boolean :=
  match initial with
  | none => .ok ⟨d, d.default⟩
  | some v =>
    match d.validateBool v with
    | .ok validated => .ok ⟨d, validated⟩
    | .error e => .error e

/-- Embodies the source’s `Boolean.copy`. -/
def Boolean.copy (c : Boolean) (value : Value) : Except Err Boolean :=
  match c.definition.validateBool value with
  | .ok validated => .ok ⟨c.definition, validated⟩
  | .error e => .error e

/-- Embodies the source’s `Boolean.toggle` — `self.copy(not self.current)`. -/
def Boolean.toggle (c : Boolean) : Except Err Boolean :=
  c.copy (.vBool (!c.current))

/-! ### Interval (`controls/interval.py`) -/

/-- Embodies the source’s `_FLOAT_EPSILON = 1e-10`. -/
def FLOAT_EPSILON : ℚ := 1 / 10 ^ 10

/-- Embodies the source’s `IntervalDefinition` after `__post_init__` has established that the
four numeric parameters are numbers (their numeric values are stored). -/
structure IntervalDefinition : Type where
  minimum : ℚ
  maximum : ℚ
  default : ℚ
  grade : Option ℚ
  validation_message : String
  deriving Repr

/-- Embodies the source’s `IntervalDefinition.__post_init__`, taking the dynamic constructor
arguments: numeric-kind checks, bound ordering, default within bounds,
positive grade.  Step alignment of the default is *not* checked. -/
def IntervalDefinition.make (minimum maximum default : Value)
    (grade : Option Value) (validation_message : String) :
    Except Err IntervalDefinition :=
  match minimum.asNum with
  | none => .error (.definitionInvalidity "minimum" "must be numeric" none)
  | some mn =>
  match maximum.asNum with
  | none => .error (.definitionInvalidity "maximum" "must be numeric" none)
  | some mx =>
  if mx < mn then
    .error (.definitionInvalidity "minimum" "cannot exceed maximum" none)
  else
  match default.asNum with
  | none => .error (.definitionInvalidity "default" "must be numeric" none)
  | some df =>
  if mn ≤ df ∧ df ≤ mx then
    match grade with
    | none => .ok ⟨mn, mx, df, none, validation_message⟩
    | some g =>
      match g.asNum with
      | none => .error (.definitionInvalidity "grade" "must be numeric" none)
      | some gq =>
        if gq ≤ 0 then
          .error (.definitionInvalidity "grade" "must be positive" none)
        else .ok ⟨mn, mx, df, some gq, validation_message⟩
  else
    .error (.definitionInvalidity "default" "must be within bounds"
      (some "minimum and maximum"))

/-- Embodies the source’s `IntervalDefinition.validate_value`, with its result viewed at its
Python type `float` (`float(value)` is exact in the rational model):
numeric-kind check, then bounds, then step alignment against
`_FLOAT_EPSILON`. -/
def IntervalDefinition.validateNum (d : IntervalDefinition) (value : Value) :
    Except Err ℚ :=
  match value.asNum with
  | none => .error (.controlInvalidity d.validation_message)
  | some q =>
    if d.minimum ≤ q ∧ q ≤ d.maximum then
      match d.grade with
      | none => .ok q
      | some g =>
        let steps_from_minimum := (q - d.minimum) / g
        let deviation :=
          |steps_from_minimum - (pyRound steps_from_minimum : ℚ)|
        if deviation < FLOAT_EPSILON then .ok q
        else .error (.stepConstraintViolation g d.minimum)
    else .error (.boundsConstraintViolation d.minimum d.maximum q)

/-- Embodies the source’s `IntervalDefinition.validate_value`. -/
def IntervalDefinition.validate_value (d : IntervalDefinition)
    (value : Value) : Except Err Value :=
  (Value.vNum ·) <$> d.validateNum value

/-- Embodies the source’s `Interval` control state. -/
structure Interval : Type where
  definition : IntervalDefinition
  current : ℚ
  deriving Repr

/-- Embodies the source’s `IntervalDefinition.produce_control`: with an absent initial the
stored default is used *without* validation. -/
def IntervalDefinition.produce_control (d : IntervalDefinition)
    (initial : Option Value) : Except Err Interval :=
  match initial with
  | none => .ok ⟨d, d.default⟩
  | some v =>
    match d.validateNum v with
    | .ok validated => .ok ⟨d, validated⟩
    | .error e => .error e

/-- Embodies the source’s `Interval.copy`. -/
def Interval.copy (c : Interval) (value : Value) : Except Err Interval :=
  match c.definition.validateNum value with
  | .ok validated => .ok ⟨c.definition, validated⟩
  | .error e => .error e

/-- Embodies the source’s `Interval.increment` — `IncrementOperationFailure` for continuous
intervals, else `self.copy(self.current + self.definition.grade)`. -/
def Interval.increment (c : Interval) : Except Err Interval :=
  match c.definition.grade with
  | none => .error (.incrementOperationFailure "increment")
  | some g => c.copy (.vNum (c.current + g))

/-- Embodies the source’s `Interval.decrement`. -/
def Interval.decrement (c : Interval) : Except Err Interval :=
  match c.definition.grade with
  | none => .error (.incrementOperationFailure "decrement")
  | some g => c.copy (.vNum (c.current - g))

end Vibecontrols

namespace Vibecontrols

/-! ### Options (`controls/options.py`) -/

/-- Embodies the source’s `OptionsDefinition` (choices already normalized to a tuple). -/
structure OptionsDefinition : Type where
  choices : List Value
  default : Value
  allow_multiple : Bool
  validation_message : String
  deriving Repr

/-- Embodies the source’s `OptionsDefinition.validate_value`: multi-select requires a
non-empty duplicate-free sequence of choice members (returned as a
tuple, order preserved); single-select requires `value in choices`. -/
def OptionsDefinition.validate_value (d : OptionsDefinition)
    (value : Value) : Except Err Value :=
  if d.allow_multiple then
    match value.asSeq with
    | none => .error (.typeInvalidity "a sequence")
    | some sequence_value =>
      if sequence_value.isEmpty then
        .error (.sizeConstraintViolation (some 1) none 0 "Selection count")
      else
        match sequence_value.find? (fun item => ! pyMem item d.choices) with
        | some item => .error (.selectionConstraintViolation item)
        | none =>
          if hasPyDup sequence_value then
            .error (.uniquenessConstraintViolation none true)
          else .ok (.vTuple sequence_value)
  else
    if pyMem value d.choices then .ok value
    else .error (.controlInvalidity d.validation_message)

/-- Embodies the source’s `OptionsDefinition.__post_init__`: non-empty choices,
`set(choices)` (TypeError on an unhashable choice), uniqueness, then
the default is validated, `ControlInvalidity` being converted to
`DefinitionInvalidity` (exception-message rendering for `detail` is not
modelled). -/
def OptionsDefinition.make (choices : List Value) (default : Value)
    (allow_multiple : Bool) (validation_message : String) :
    Except Err OptionsDefinition :=
  if choices.isEmpty then
    .error (.definitionInvalidity "choices" "cannot be empty" none)
  else if ! pyHashableList choices then
    .error .pyTypeError
  else if hasPyDup choices then
    .error (.definitionInvalidity "choices" "must be unique" none)
  else
    let d : OptionsDefinition :=
      ⟨choices, default, allow_multiple, validation_message⟩
    match d.validate_value default with
    | .ok _ => .ok d
    | .error e =>
      if e.isControlInvalidity then
        .error (.definitionInvalidity "default" "is invalid" none)
      else .error e

/-- Embodies the source’s `Options` control state. -/
structure Options : Type where
  definition : OptionsDefinition
  current : Value
  deriving Repr

/-- Embodies the source’s `OptionsDefinition.produce_control` — both branches validate (the
default is validated even when no initial is supplied). -/
def OptionsDefinition.produce_control (d : OptionsDefinition)
    (initial : Option Value) : Except Err Options :=
  match initial with
  | none =>
    match d.validate_value d.default with
    | .ok validated => .ok ⟨d, validated⟩
    | .error e => .error e
  | some v =>
    match d.validate_value v with
    | .ok validated => .ok ⟨d, validated⟩
    | .error e => .error e

/-- Embodies the source’s `Options.copy`. -/
def Options.copy (c : Options) (new_value : Value) : Except Err Options :=
  match c.definition.validate_value new_value with
  | .ok validated => .ok ⟨c.definition, validated⟩
  | .error e => .error e

/-- Embodies the source’s `Options.cycle_next`: multi-select raises `CycleOperationFailure`;
otherwise `choices.index(current)` (first `==` match; `ValueError` when
absent), advance modulo the choice count, and `copy`. -/
def Options.cycle_next (c : Options) : Except Err Options :=
  if c.definition.allow_multiple then .error .cycleOperationFailure
  else
    match c.definition.choices.findIdx? (fun ch => pyEq ch c.current) with
    | none => .error .pyValueError
    | some current_index =>
      let next_index :=
        (current_index + 1) % c.definition.choices.length
      c.copy (c.definition.choices.getD next_index (.vNum 0))

/-- Embodies the source’s `Options.cycle_previous` (Python `%` on a possibly negative
numerator is Euclidean for a positive modulus, hence `Int.emod`). -/
def Options.cycle_previous (c : Options) : Except Err Options :=
  if c.definition.allow_multiple then .error .cycleOperationFailure
  else
    match c.definition.choices.findIdx? (fun ch => pyEq ch c.current) with
    | none => .error .pyValueError
    | some current_index =>
      let previous_index :=
        (((current_index : ℤ) - 1).emod
          (c.definition.choices.length : ℤ)).toNat
      c.copy (c.definition.choices.getD previous_index (.vNum 0))

/-! ### Array (`controls/array.py`)

`element_definition` is an arbitrary `ControlDefinition`; it enters the
array algorithms only through its `validate_value` method, so it is
embedded as that function (`elemValidate`). -/

/-- Embodies the source’s `ArrayDefinition`. -/
structure ArrayDefinition : Type where
  elemValidate : Value → Except Err Value
  size_min : ℤ
  size_max : Option ℤ
  default_elements : List Value
  allow_duplicates : Bool

/-- The element loop of `ArrayDefinition.validate_value`: each element
is validated, failures being wrapped as `ElementInvalidity` with the
element's index (only `ControlInvalidity` is caught). -/
def validateElements (ev : Value → Except Err Value) :
    ℕ → List Value → Except Err (List Value)
  | _, [] => .ok []
  | index, element :: rest =>
    match ev element with
    | .ok validated =>
      match validateElements ev (index + 1) rest with
      | .ok vs => .ok (validated :: vs)
      | .error e => .error e
    | .error e =>
      if e.isControlInvalidity then .error (.elementInvalidity index e)
      else .error e

/-- The duplicate scan of `ArrayDefinition.validate_value`: hashing an
unhashable element raises `TypeError`, converted to a
`UniquenessConstraintViolation` flagged not hashable; a repeat of an
earlier element is a plain `UniquenessConstraintViolation` at its
index. -/
def dupScan : ℕ → List Value → List Value → Except Err Unit
  | _, _, [] => .ok ()
  | index, seen, element :: rest =>
    if ! pyHashable element then
      .error (.uniquenessConstraintViolation (some index) false)
    else if seen.any (fun s => pyEq element s) then
      .error (.uniquenessConstraintViolation (some index) true)
    else dupScan (index + 1) (element :: seen) rest

/-- Embodies the source’s `ArrayDefinition.validate_value`, result viewed at its Python type
(tuple of validated elements): sequence-kind check, then size bounds,
then element validation, then (when duplicates are forbidden) the
duplicate scan. -/
def ArrayDefinition.validateList (d : ArrayDefinition) (value : Value) :
    Except Err (List Value) :=
  match value.asSeq with
  | none => .error (.typeInvalidity "a sequence")
  | some sequence_value =>
    let size : ℤ := (sequence_value.length : ℤ)
    if size < d.size_min then
      .error (.sizeConstraintViolation (some d.size_min) d.size_max size
        "Array size")
    else if aboveMax d.size_max size then
      .error (.sizeConstraintViolation (some d.size_min) d.size_max size
        "Array size")
    else
      match validateElements d.elemValidate 0 sequence_value with
      | .error e => .error e
      | .ok validated_elements =>
        if d.allow_duplicates then .ok validated_elements
        else
          match dupScan 0 [] validated_elements with
          | .ok _ => .ok validated_elements
          | .error e => .error e

/-- Embodies the source’s `ArrayDefinition.validate_value`. -/
def ArrayDefinition.validate_value (d : ArrayDefinition) (value : Value) :
    Except Err Value :=
  (Value.vTuple ·) <$> d.validateList value

/-- Embodies the source’s `ArrayDefinition.__post_init__`: size-bound sanity checks, then the
default elements are validated, `ControlInvalidity` being converted to
`DefinitionInvalidity`. -/
def ArrayDefinition.make (elemValidate : Value → Except Err Value)
    (size_min : ℤ) (size_max : Option ℤ) (default_elements : List Value)
    (allow_duplicates : Bool) : Except Err ArrayDefinition :=
  if size_min < 0 then
    .error (.definitionInvalidity "size_min" "cannot be negative" none)
  else if negBound size_max then
    .error (.definitionInvalidity "size_max" "cannot be negative" none)
  else if aboveMax size_max size_min then
    .error (.definitionInvalidity "size_min" "cannot exceed"
      (some "maximum size"))
  else
    let d : ArrayDefinition :=
      ⟨elemValidate, size_min, size_max, default_elements, allow_duplicates⟩
    match d.validateList (.vTuple default_elements) with
    | .ok _ => .ok d
    | .error e =>
      if e.isControlInvalidity then
        .error (.definitionInvalidity "default_elements" "is invalid" none)
      else .error e

/-- Embodies the source’s `Array` control state. -/
structure Array : Type where
  definition : ArrayDefinition
  current : List Value

/-- Embodies the source’s `ArrayDefinition.produce_control` — both branches validate. -/
def ArrayDefinition.produce_control (d : ArrayDefinition)
    (initial : Option Value) : Except Err Array :=
  match initial with
  | none =>
    match d.validateList (.vTuple d.default_elements) with
    | .ok validated => .ok ⟨d, validated⟩
    | .error e => .error e
  | some v =>
    match d.validateList v with
    | .ok validated => .ok ⟨d, validated⟩
    | .error e => .error e

/-- Embodies the source’s `Array.copy`. -/
def Array.copy (c : Array) (value : Value) : Except Err Array :=
  match c.definition.validateList value with
  | .ok validated => .ok ⟨c.definition, validated⟩
  | .error e => .error e

/-- Embodies the source’s `Array.append` — `self.copy((*self.current, element))`. -/
def Array.append (c : Array) (element : Value) : Except Err Array :=
  c.copy (.vTuple (c.current ++ [element]))

/-- Embodies the source’s `Array.remove_at`. -/
def Array.remove_at (c : Array) (index : ℤ) : Except Err Array :=
  if 0 ≤ index ∧ index < (c.current.length : ℤ) then
    c.copy (.vTuple
      (c.current.take index.toNat ++ c.current.drop (index.toNat + 1)))
  else .error (.indexOutOfRange index c.current.length "access")

/-- Embodies the source’s `Array.insert_at`. -/
def Array.insert_at (c : Array) (index : ℤ) (element : Value) :
    Except Err Array :=
  if 0 ≤ index ∧ index ≤ (c.current.length : ℤ) then
    c.copy (.vTuple
      (c.current.take index.toNat ++ element :: c.current.drop index.toNat))
  else .error (.indexOutOfRange index c.current.length "insertion")

/-- Embodies the source’s `set(new_order) == set(range(n))`. -/
def sameIndexSet (new_order : List ℤ) (n : ℕ) : Bool :=
  (List.range n).all (fun k => new_order.contains (k : ℤ)) &&
  new_order.all (fun x => decide (0 ≤ x) && decide (x < (n : ℤ)))

/-- Embodies the source’s `Array.reorder`: length check, set-equality check (each failure an
`InvalidPermutation`), then the gather `current[new_order[i]]` (all
indices are in range after the set check, so the `IndexError` fallback
of the source is dead code) and `copy`. -/
def Array.reorder (c : Array) (new_order : List ℤ) : Except Err Array :=
  if new_order.length ≠ c.current.length then
    .error (.invalidPermutation c.current.length (some new_order.length))
  else if ! sameIndexSet new_order c.current.length then
    .error (.invalidPermutation c.current.length none)
  else
    c.copy (.vTuple
      (new_order.map (fun i => c.current.getD i.toNat (.vNum 0))))

end Vibecontrols

/-! ### Basic lemmas on the Python-semantics helpers -/

mutual

theorem pyEq_refl : ∀ v : Value, pyEq v v = true
  | .vBool b => by simp [pyEq]
  | .vNum q => by simp [pyEq]
  | .vStr s => by simp [pyEq]
  | .vList xs => by simpa [pyEq] using pyEqList_refl xs
  | .vTuple xs => by simpa [pyEq] using pyEqList_refl xs

theorem pyEqList_refl : ∀ xs : List Value, pyEqList xs xs = true
  | [] => rfl
  | x :: xs => by
    simp only [pyEqList, Bool.and_eq_true]
    exact ⟨pyEq_refl x, pyEqList_refl xs⟩

end

mutual

theorem pyEq_symm : ∀ u v : Value, pyEq u v = pyEq v u
  | .vBool a, .vBool b => by cases a <;> cases b <;> rfl
  | .vBool a, .vNum q => by simp [pyEq, eq_comm]
  | .vBool a, .vStr s => rfl
  | .vBool a, .vList ys => rfl
  | .vBool a, .vTuple ys => rfl
  | .vNum p, .vBool b => by simp [pyEq, eq_comm]
  | .vNum p, .vNum q => by simp [pyEq, eq_comm]
  | .vNum p, .vStr s => rfl
  | .vNum p, .vList ys => rfl
  | .vNum p, .vTuple ys => rfl
  | .vStr s, .vBool b => rfl
  | .vStr s, .vNum q => rfl
  | .vStr s, .vStr t => by simp [pyEq, eq_comm]
  | .vStr s, .vList ys => rfl
  | .vStr s, .vTuple ys => rfl
  | .vList xs, .vBool b => rfl
  | .vList xs, .vNum q => rfl
  | .vList xs, .vStr t => rfl
  | .vList xs, .vList ys => by simpa [pyEq] using pyEqList_symm xs ys
  | .vList xs, .vTuple ys => rfl
  | .vTuple xs, .vBool b => rfl
  | .vTuple xs, .vNum q => rfl
  | .vTuple xs, .vStr t => rfl
  | .vTuple xs, .vList ys => rfl
  | .vTuple xs, .vTuple ys => by simpa [pyEq] using pyEqList_symm xs ys

theorem pyEqList_symm : ∀ xs ys : List Value, pyEqList xs ys = pyEqList ys xs
  | [], [] => rfl
  | [], _ :: _ => rfl
  | _ :: _, [] => rfl
  | x :: xs, y :: ys => by
    simp only [pyEqList]
    rw [pyEq_symm x y, pyEqList_symm xs ys]

end

theorem pyMem_of_mem {x : Value} {xs : List Value} (h : x ∈ xs) :
    pyMem x xs = true := by
  simp only [pyMem, List.any_eq_true]
  exact ⟨x, h, pyEq_refl x⟩

namespace Vibecontrols

/-! ### The control invariant and validator idempotence -/

/-- The spec's Control invariant for `Text`: `validate_value` on the
held value succeeds and returns it. -/
def Text.Valid (c : Text) : Prop :=
  c.definition.validate_value (.vStr c.current) = .ok (.vStr c.current)

/-- The spec's Control invariant for `Boolean`. -/
def Boolean.Valid (c : Boolean) : Prop :=
  c.definition.validate_value (.vBool c.current) = .ok (.vBool c.current)

/-- The spec's Control invariant for `Interval`. -/
def Interval.Valid (c : Interval) : Prop :=
  c.definition.validate_value (.vNum c.current) = .ok (.vNum c.current)

/-- The spec's Control invariant for `Options`. -/
def Options.Valid (c : Options) : Prop :=
  c.definition.validate_value c.current = .ok c.current

/-- The spec's Control invariant for `Array`. -/
def Array.Valid (c : Array) : Prop :=
  c.definition.validate_value (.vTuple c.current) = .ok (.vTuple c.current)

theorem validateStr_idem {d : TextDefinition} {v : Value} {s : String}
    (h : d.validateStr v = .ok s) : d.validateStr (.vStr s) = .ok s := by
  cases v <;> simp only [TextDefinition.validateStr] at h ⊢ <;>
    try exact absurd h (by simp)
  case vStr t =>
    split at h
    · exact absurd h (by simp)
    · split at h
      · exact absurd h (by simp)
      · obtain rfl : t = s := by simpa using h
        simp_all

theorem validateBool_idem {d : BooleanDefinition} {v : Value} {b : Bool}
    (h : d.validateBool v = .ok b) : d.validateBool (.vBool b) = .ok b := by
  cases v <;> simp only [BooleanDefinition.validateBool] at h ⊢

/-- The step-alignment test of `IntervalDefinition.validate_value` as a
standalone predicate (vacuously true for continuous intervals). -/
def stepOKb (d : IntervalDefinition) (q : ℚ) : Bool :=
  match d.grade with
  | none => true
  | some g =>
    decide (|(q - d.minimum) / g - (pyRound ((q - d.minimum) / g) : ℚ)|
      < FLOAT_EPSILON)

theorem validateNum_of {d : IntervalDefinition} {q : ℚ}
    (hb1 : d.minimum ≤ q) (hb2 : q ≤ d.maximum) (hs : stepOKb d q = true) :
    d.validateNum (.vNum q) = .ok q := by
  unfold IntervalDefinition.validateNum
  simp only [Value.asNum]
  rw [if_pos ⟨hb1, hb2⟩]
  cases hg : d.grade with
  | none => rfl
  | some g =>
    simp only [stepOKb, hg, decide_eq_true_eq] at hs
    simp only [if_pos hs]

theorem validateNum_ok_elim {d : IntervalDefinition} {v : Value} {q : ℚ}
    (h : d.validateNum v = .ok q) :
    v.asNum = some q ∧ d.minimum ≤ q ∧ q ≤ d.maximum ∧ stepOKb d q = true := by
  unfold IntervalDefinition.validateNum at h
  cases hn : v.asNum with
  | none => rw [hn] at h; exact absurd h (by simp)
  | some p =>
    rw [hn] at h
    simp only at h
    by_cases hb : d.minimum ≤ p ∧ p ≤ d.maximum
    · rw [if_pos hb] at h
      cases hg : d.grade with
      | none =>
        rw [hg] at h
        obtain rfl : p = q := by simpa using h
        exact ⟨rfl, hb.1, hb.2, by simp [stepOKb, hg]⟩
      | some g =>
        rw [hg] at h
        simp only at h
        split at h
        · obtain rfl : p = q := by simpa using h
          refine ⟨rfl, hb.1, hb.2, ?_⟩
          simp only [stepOKb, hg, decide_eq_true_eq]
          assumption
        · exact absurd h (by simp)
    · rw [if_neg hb] at h
      exact absurd h (by simp)

theorem validateNum_idem {d : IntervalDefinition} {v : Value} {q : ℚ}
    (h : d.validateNum v = .ok q) : d.validateNum (.vNum q) = .ok q := by
  obtain ⟨_, hb1, hb2, hs⟩ := validateNum_ok_elim h
  exact validateNum_of hb1 hb2 hs

end Vibecontrols

/-! ### Properties of Python rounding -/

theorem pyRound_eq_of_abs_lt {q : ℚ} {n : ℤ} (h : |q - (n : ℚ)| < 1/2) :
    pyRound q = n := by
  rw [abs_sub_lt_iff] at h
  obtain ⟨h1, h2⟩ := h
  rcases le_or_lt (n : ℚ) q with hq | hq
  · have hfl : ⌊q⌋ = n := by
      rw [Int.floor_eq_iff]
      constructor
      · exact hq
      · linarith
    simp only [pyRound, hfl]
    rw [if_pos (by linarith)]
  · have hfl : ⌊q⌋ = n - 1 := by
      rw [Int.floor_eq_iff]
      constructor
      · push_cast
        linarith
      · push_cast
        linarith
    simp only [pyRound, hfl]
    rw [if_neg (by push_cast; linarith), if_pos (by push_cast; linarith)]
    omega

theorem FLOAT_EPSILON_lt_half : Vibecontrols.FLOAT_EPSILON < 1/2 := by
  norm_num [Vibecontrols.FLOAT_EPSILON]

theorem pyRound_add_int {q : ℚ} (k : ℤ)
    (h : |q - (pyRound q : ℚ)| < Vibecontrols.FLOAT_EPSILON) :
    pyRound (q + (k : ℚ)) = pyRound q + k := by
  apply pyRound_eq_of_abs_lt
  have he := FLOAT_EPSILON_lt_half
  have heq : q + (k : ℚ) - (((pyRound q + k : ℤ)) : ℚ) = q - (pyRound q : ℚ) := by
    push_cast
    ring
  rw [heq]
  linarith

namespace Vibecontrols

theorem optionsValidate_idem {d : OptionsDefinition} {v w : Value}
    (h : d.validate_value v = .ok w) : d.validate_value w = .ok w := by
  unfold OptionsDefinition.validate_value at h ⊢
  by_cases ham : d.allow_multiple = true
  · rw [if_pos ham] at h ⊢
    cases hs : v.asSeq with
    | none => simp [hs] at h
    | some items =>
      simp only [hs] at h
      by_cases hemp : items.isEmpty = true
      · simp [hemp] at h
      · rw [Bool.not_eq_true] at hemp
        simp only [hemp, Bool.false_eq_true, if_false] at h
        cases hf : items.find? (fun item => ! pyMem item d.choices) with
        | some item => simp [hf] at h
        | none =>
          simp only [hf] at h
          by_cases hd : hasPyDup items = true
          · simp [hd] at h
          · rw [Bool.not_eq_true] at hd
            simp only [hd, Bool.false_eq_true, if_false] at h
            obtain rfl : w = Value.vTuple items := by
              simpa [eq_comm] using h
            simp only [Value.asSeq, hemp, hf, hd]
            simp
  · rw [if_neg ham] at h ⊢
    by_cases hm : pyMem v d.choices = true
    · rw [if_pos hm] at h
      obtain rfl : w = v := by simpa [eq_comm] using h
      rw [if_pos hm]
    · rw [if_neg hm] at h
      exact absurd h (by simp)

end Vibecontrols

namespace Vibecontrols

/-! ### Array lemmas -/

/-- An idempotent element validator: re-validating a validated value
succeeds and is the identity (true of all five built-in types). -/
def Idem (ev : Value → Except Err Value) : Prop :=
  ∀ v w, ev v = .ok w → ev w = .ok w

theorem validateElements_fix {ev : Value → Except Err Value}
    {xs : List Value} (h : ∀ x ∈ xs, ev x = .ok x) :
    ∀ k, validateElements ev k xs = .ok xs := by
  induction xs with
  | nil => intro k; rfl
  | cons x xs ih =>
    intro k
    simp only [validateElements, h x (by simp)]
    rw [ih (fun y hy => h y (by simp [hy])) (k + 1)]

theorem validateElements_ok_elim {ev : Value → Except Err Value} :
    ∀ {k : ℕ} {xs ys : List Value}, validateElements ev k xs = .ok ys →
      ys.length = xs.length ∧ ∀ y ∈ ys, ∃ x, ev x = .ok y := by
  intro k xs
  induction xs generalizing k with
  | nil =>
    intro ys h
    simp only [validateElements] at h
    obtain rfl : ys = [] := by simpa [eq_comm] using h
    simp
  | cons x xs ih =>
    intro ys h
    simp only [validateElements] at h
    cases he : ev x with
    | error e =>
      rw [he] at h
      simp only at h
      split at h <;> exact absurd h (by simp)
    | ok w =>
      rw [he] at h
      simp only at h
      cases hr : validateElements ev (k + 1) xs with
      | error e => rw [hr] at h; simp at h
      | ok ws =>
        rw [hr] at h
        obtain rfl : ys = w :: ws := by simpa [eq_comm] using h
        obtain ⟨hl, hmem⟩ := ih hr
        refine ⟨by simp [hl], ?_⟩
        intro y hy
        rcases List.mem_cons.mp hy with rfl | hy2
        · exact ⟨x, he⟩
        · exact hmem y hy2

theorem validateElements_self_elim {ev : Value → Except Err Value} :
    ∀ {k : ℕ} {xs : List Value}, validateElements ev k xs = .ok xs →
      ∀ x ∈ xs, ev x = .ok x := by
  intro k xs
  induction xs generalizing k with
  | nil => intro _ x hx; cases hx
  | cons x xs ih =>
    intro h
    simp only [validateElements] at h
    cases he : ev x with
    | error e =>
      rw [he] at h
      simp only at h
      split at h <;> exact absurd h (by simp)
    | ok w =>
      rw [he] at h
      simp only at h
      cases hr : validateElements ev (k + 1) xs with
      | error e => rw [hr] at h; simp at h
      | ok ws =>
        rw [hr] at h
        have hxw : w = x ∧ ws = xs := by
          have := h
          simp only [Except.ok.injEq, List.cons.injEq] at this
          exact ⟨this.1, this.2⟩
        obtain ⟨rfl, rfl⟩ := hxw
        intro y hy
        rcases List.mem_cons.mp hy with rfl | hy2
        · exact he
        · exact ih hr y hy2

theorem dupScan_ok_iff :
    ∀ (xs : List Value) (k : ℕ) (seen : List Value),
      dupScan k seen xs = .ok () ↔
        (∀ x ∈ xs, pyHashable x = true) ∧
        List.Pairwise (fun a b => pyEq b a = false) xs ∧
        (∀ x ∈ xs, ∀ s ∈ seen, pyEq x s = false) := by
  intro xs
  induction xs with
  | nil => intro k seen; simp [dupScan]
  | cons x xs ih =>
    intro k seen
    simp only [dupScan]
    by_cases hh : pyHashable x = true
    · simp only [hh, Bool.not_true, Bool.false_eq_true, if_false]
      by_cases hseen : seen.any (fun s => pyEq x s) = true
      · simp only [hseen, if_true]
        constructor
        · intro h; simp at h
        · rintro ⟨-, -, hnos⟩
          rcases List.any_eq_true.mp hseen with ⟨s, hs, hxs⟩
          rw [hnos x (by simp) s hs] at hxs
          cases hxs
      · simp only [hseen, Bool.false_eq_true, if_false]
        rw [ih (k + 1) (x :: seen)]
        rw [Bool.not_eq_true] at hseen
        constructor
        · rintro ⟨hhash, hpw, hnos⟩
          refine ⟨?_, ?_, ?_⟩
          · intro y hy
            rcases List.mem_cons.mp hy with rfl | hy2
            · exact hh
            · exact hhash y hy2
          · rw [List.pairwise_cons]
            refine ⟨?_, hpw⟩
            intro b hb
            exact hnos b hb x (by simp)
          · intro y hy s hs
            rcases List.mem_cons.mp hy with rfl | hy2
            · simpa using List.any_eq_false.mp hseen s hs
            · exact hnos y hy2 s (List.mem_cons_of_mem x hs)
        · rintro ⟨hhash, hpw, hnos⟩
          rw [List.pairwise_cons] at hpw
          refine ⟨?_, hpw.2, ?_⟩
          · intro y hy
            exact hhash y (by simp [hy])
          · intro y hy s hs
            rcases List.mem_cons.mp hs with rfl | hs2
            · exact hpw.1 y hy
            · exact hnos y (by simp [hy]) s hs2
    · simp only [hh]
      constructor
      · intro h
        rw [Bool.not_eq_true] at hh
        simp [hh] at h
      · rintro ⟨hhash, -, -⟩
        exact absurd (hhash x (by simp)) hh

end Vibecontrols

namespace Vibecontrols

theorem validateList_intro {d : ArrayDefinition} {xs : List Value}
    (hmin : ((xs.length : ℤ) < d.size_min) = False)
    (hmax : aboveMax d.size_max (xs.length : ℤ) = false)
    (hfix : ∀ x ∈ xs, d.elemValidate x = .ok x)
    (hdup : d.allow_duplicates = false → dupScan 0 [] xs = .ok ()) :
    d.validateList (.vTuple xs) = .ok xs := by
  unfold ArrayDefinition.validateList
  simp only [Value.asSeq]
  rw [if_neg (by simp [hmin]), if_neg (by simp [hmax])]
  rw [validateElements_fix hfix 0]
  simp only
  by_cases ha : d.allow_duplicates = true
  · simp [ha]
  · rw [Bool.not_eq_true] at ha
    simp only [ha, Bool.false_eq_true, if_false]
    rw [hdup ha]

theorem validateList_ok_elim {d : ArrayDefinition} {v : Value}
    {xs : List Value} (h : d.validateList v = .ok xs) :
    ∃ seq, v.asSeq = some seq ∧ xs.length = seq.length ∧
      ((seq.length : ℤ) < d.size_min) = False ∧
      aboveMax d.size_max (seq.length : ℤ) = false ∧
      validateElements d.elemValidate 0 seq = .ok xs ∧
      (d.allow_duplicates = false → dupScan 0 [] xs = .ok ()) := by
  unfold ArrayDefinition.validateList at h
  cases hs : v.asSeq with
  | none => simp [hs] at h
  | some seq =>
    simp only [hs] at h
    by_cases hmin : (seq.length : ℤ) < d.size_min
    · simp [hmin] at h
    · rw [if_neg hmin] at h
      by_cases hmax : aboveMax d.size_max (seq.length : ℤ) = true
      · simp [hmax] at h
      · rw [Bool.not_eq_true] at hmax
        rw [if_neg (by simp [hmax])] at h
        cases hv : validateElements d.elemValidate 0 seq with
        | error e => simp [hv] at h
        | ok ys =>
          simp only [hv] at h
          by_cases ha : d.allow_duplicates = true
          · simp only [ha, if_true] at h
            obtain rfl : ys = xs := by simpa using h
            exact ⟨seq, rfl, (validateElements_ok_elim hv).1, by simp [hmin],
              hmax, hv, by simp [ha]⟩
          · rw [Bool.not_eq_true] at ha
            simp only [ha, Bool.false_eq_true, if_false] at h
            cases hd : dupScan 0 [] ys with
            | error e => simp [hd] at h
            | ok u =>
              rw [hd] at h
              obtain rfl : ys = xs := by simpa using h
              exact ⟨seq, rfl, (validateElements_ok_elim hv).1, by simp [hmin],
                hmax, hv, fun _ => by rw [hd]⟩

theorem validateList_idem {d : ArrayDefinition} (hid : Idem d.elemValidate)
    {v : Value} {xs : List Value} (h : d.validateList v = .ok xs) :
    d.validateList (.vTuple xs) = .ok xs := by
  obtain ⟨seq, -, hlen, hmin, hmax, hval, hdup⟩ := validateList_ok_elim h
  apply validateList_intro
  · rw [hlen]; exact hmin
  · rw [hlen]; exact hmax
  · intro x hx
    obtain ⟨y, hy⟩ := (validateElements_ok_elim hval).2 x hx
    exact hid y x hy
  · exact hdup

theorem pyEqFalse_symmetric :
    Symmetric (fun a b : Value => pyEq b a = false) := by
  intro a b hab
  rw [pyEq_symm]
  exact hab

theorem validateList_perm {d : ArrayDefinition} {cur ys : List Value}
    (h : d.validateList (.vTuple cur) = .ok cur)
    (hp : List.Perm ys cur) :
    d.validateList (.vTuple ys) = .ok ys := by
  obtain ⟨seq, hseq, -, hmin, hmax, hval, hdup⟩ := validateList_ok_elim h
  obtain rfl : seq = cur := by simpa [Value.asSeq, eq_comm] using hseq
  have hlen := hp.length_eq
  apply validateList_intro
  · rw [hlen]; exact hmin
  · rw [hlen]; exact hmax
  · intro x hx
    exact validateElements_self_elim hval x (hp.mem_iff.mp hx)
  · intro ha
    have hcur := hdup ha
    rw [dupScan_ok_iff] at hcur ⊢
    obtain ⟨hhash, hpw, -⟩ := hcur
    refine ⟨fun x hx => hhash x (hp.mem_iff.mp hx),
      (hp.pairwise_iff (fun hx => pyEqFalse_symmetric hx)).mpr hpw, by simp⟩

/-! ### Permutation machinery for `reorder` -/

theorem map_range_getD {α : Type} (xs : List α) (d0 : α) :
    (List.range xs.length).map (fun i => xs.getD i d0) = xs := by
  induction xs with
  | nil => rfl
  | cons x xs ih =>
    rw [List.length_cons, List.range_succ_eq_map, List.map_cons, List.map_map]
    simp only [List.getD_cons_zero]
    congr 1

theorem toNat_map_perm_range {new_order : List ℤ} {n : ℕ}
    (hlen : new_order.length = n) (hset : sameIndexSet new_order n = true) :
    List.Perm (new_order.map Int.toNat) (List.range n) := by
  rw [sameIndexSet, Bool.and_eq_true] at hset
  obtain ⟨hall, hbnd⟩ := hset
  rw [List.all_eq_true] at hall hbnd
  have hσlen : (new_order.map Int.toNat).length = n := by simp [hlen]
  have hmem : ∀ m ∈ new_order.map Int.toNat, m < n := by
    intro m hm
    obtain ⟨x, hx, rfl⟩ := List.mem_map.mp hm
    have := hbnd x hx
    rw [Bool.and_eq_true, decide_eq_true_eq, decide_eq_true_eq] at this
    omega
  have hcov : ∀ k < n, k ∈ new_order.map Int.toNat := by
    intro k hk
    have hc := hall k (List.mem_range.mpr hk)
    have hmemi : (k : ℤ) ∈ new_order := by simpa using hc
    exact List.mem_map.mpr ⟨(k : ℤ), hmemi, by simp⟩
  have hfin : (new_order.map Int.toNat).toFinset = Finset.range n := by
    ext m
    simp only [List.mem_toFinset, Finset.mem_range]
    exact ⟨hmem m, hcov m⟩
  have hnd : (new_order.map Int.toNat).Nodup := by
    have hcard : (new_order.map Int.toNat).toFinset.card = n := by
      rw [hfin, Finset.card_range]
    have hdl : (new_order.map Int.toNat).dedup.length = n := by
      rw [← List.card_toFinset]
      exact hcard
    have heq : (new_order.map Int.toNat).dedup = new_order.map Int.toNat :=
      (List.dedup_sublist _).eq_of_length (by rw [hdl, hσlen])
    exact List.dedup_eq_self.mp heq
  have hr : (List.range n).toFinset = Finset.range n := by
    ext m
    simp
  exact List.perm_of_nodup_nodup_toFinset_eq hnd (List.nodup_range n)
    (by rw [hfin, hr])

theorem gather_perm {xs : List Value} {new_order : List ℤ}
    (hlen : new_order.length = xs.length)
    (hset : sameIndexSet new_order xs.length = true) :
    List.Perm (new_order.map (fun i => xs.getD i.toNat (.vNum 0))) xs := by
  have h1 : new_order.map (fun i => xs.getD i.toNat (.vNum 0))
      = (new_order.map Int.toNat).map (fun i => xs.getD i (.vNum 0)) := by
    rw [List.map_map]
    rfl
  rw [h1]
  have h2 := (toNat_map_perm_range hlen hset).map
    (fun i => xs.getD i (.vNum 0))
  rw [map_range_getD xs (.vNum 0)] at h2
  exact h2

theorem arrayValid_iff {c : Array} :
    c.Valid ↔ c.definition.validateList (.vTuple c.current) = .ok c.current := by
  unfold Array.Valid ArrayDefinition.validate_value
  cases h : c.definition.validateList (.vTuple c.current) <;> simp [h]

theorem reorder_ok {c : Array} {new_order : List ℤ}
    (hv : c.Valid)
    (hlen : new_order.length = c.current.length)
    (hset : sameIndexSet new_order c.current.length = true) :
    c.reorder new_order = .ok ⟨c.definition,
      new_order.map (fun i => c.current.getD i.toNat (.vNum 0))⟩ := by
  rw [arrayValid_iff] at hv
  unfold Array.reorder
  rw [if_neg (by simp [hlen]), if_neg (by simp [hset])]
  unfold Array.copy
  rw [validateList_perm hv (gather_perm hlen hset)]

end Vibecontrols

theorem pyRound_intCast (n : ℤ) : pyRound ((n : ℚ)) = n :=
  pyRound_eq_of_abs_lt (by norm_num)

theorem pyRound_add_half {n : ℤ} :
    pyRound ((n : ℚ) + 1/2) = if Even n then n else n + 1 := by
  have hfl : ⌊(n : ℚ) + 1/2⌋ = n := by
    rw [Int.floor_eq_iff]
    constructor
    · linarith
    · push_cast
      linarith
  simp only [pyRound, hfl]
  have hr : (n : ℚ) + 1/2 - (n : ℚ) = 1/2 := by ring
  rw [hr, if_neg (by norm_num), if_neg (by norm_num)]

namespace Vibecontrols

theorem validateNum_step_error {d : IntervalDefinition} {q g : ℚ}
    (hg : d.grade = some g) (hb1 : d.minimum ≤ q) (hb2 : q ≤ d.maximum)
    (hs : ¬ (|(q - d.minimum) / g - (pyRound ((q - d.minimum) / g) : ℚ)|
      < FLOAT_EPSILON)) :
    d.validateNum (.vNum q) = .error (.stepConstraintViolation g d.minimum) := by
  unfold IntervalDefinition.validateNum
  simp only [Value.asNum, hg]
  rw [if_pos ⟨hb1, hb2⟩]
  rw [if_neg hs]

/-! ### Claim C2 -/

/-- C2 counterexample: a `TextDefinition` whose default `""` violates
`count_min = 3` constructs successfully, and an `IntervalDefinition`
whose default `3` is not step-aligned to `grade = 2` constructs
successfully — contrary to the claim that such constructions must
fail with a `DefinitionInvalidity`. -/
theorem C2_counterexample :
    TextDefinition.make "" (some 3) none "Value must be a string"
      = .ok ⟨"", some 3, none, "Value must be a string"⟩
    ∧ (TextDefinition.mk "" (some 3) none
        "Value must be a string").validateStr (.vStr "")
      = .error (.sizeConstraintViolation (some 3) none 0
          "Text character count")
    ∧ IntervalDefinition.make (.vNum 0) (.vNum 10) (.vNum 3)
        (some (.vNum 2)) "Value must be numeric"
      = .ok ⟨0, 10, 3, some 2, "Value must be numeric"⟩
    ∧ (IntervalDefinition.mk 0 10 3 (some 2)
        "Value must be numeric").validateNum (.vNum 3)
      = .error (.stepConstraintViolation 2 0) := by
  refine ⟨rfl, rfl, rfl, ?_⟩
  apply validateNum_step_error rfl (by norm_num) (by norm_num)
  have h1 : ((3 : ℚ) - 0) / 2 = ((1 : ℤ) : ℚ) + 1/2 := by norm_num
  rw [h1, pyRound_add_half, if_neg (by decide)]
  rw [FLOAT_EPSILON]
  push_cast
  rw [abs_sub_lt_iff]
  norm_num

end Vibecontrols

namespace Vibecontrols

/-- C2 (corrected): default validation at Definition construction is
performed only by Options and Array — there an invalid default fails
construction with a `DefinitionInvalidity`, never a `ControlInvalidity`.
TextDefinition and IntervalDefinition never validate their defaults
against `validate_value`: Text construction succeeds whenever the count
bounds are sane regardless of the default, and Interval construction
succeeds whenever its parameter checks pass even when the default is
not step-aligned to `grade`. -/
theorem C2_default_validation :
    (∀ (choices : List Value) (dflt : Value) (am : Bool) (msg : String)
        (e : Err),
      choices ≠ [] → pyHashableList choices = true →
      hasPyDup choices = false →
      (OptionsDefinition.mk choices dflt am msg).validate_value dflt
        = .error e →
      e.isControlInvalidity = true →
      OptionsDefinition.make choices dflt am msg
        = .error (.definitionInvalidity "default" "is invalid" none))
    ∧ (∀ (ev : Value → Except Err Value) (size_min : ℤ)
        (size_max : Option ℤ) (defaults : List Value) (ad : Bool) (e : Err),
      ¬ size_min < 0 → negBound size_max = false →
      aboveMax size_max size_min = false →
      (ArrayDefinition.mk ev size_min size_max defaults ad).validateList
        (.vTuple defaults) = .error e →
      e.isControlInvalidity = true →
      ArrayDefinition.make ev size_min size_max defaults ad
        = .error (.definitionInvalidity "default_elements" "is invalid" none))
    ∧ (∀ (dflt : String) (mn mx : Option ℤ) (msg : String),
      negBound mn = false → negBound mx = false →
      (∀ a b, mn = some a → mx = some b → a ≤ b) →
      TextDefinition.make dflt mn mx msg = .ok ⟨dflt, mn, mx, msg⟩)
    ∧ (∀ (mn mx df g : ℚ) (msg : String),
      mn ≤ mx → mn ≤ df → df ≤ mx → 0 < g →
      IntervalDefinition.make (.vNum mn) (.vNum mx) (.vNum df)
        (some (.vNum g)) msg = .ok ⟨mn, mx, df, some g, msg⟩) := by
  refine ⟨?_, ?_, ?_, ?_⟩
  · intro choices dflt am msg e hne hhash hdup hval hci
    unfold OptionsDefinition.make
    rw [if_neg (by simp [List.isEmpty_iff, hne]), if_neg (by simp [hhash]),
      if_neg (by simp [hdup])]
    simp only [hval, hci, if_true]
  · intro ev size_min size_max defaults ad e hmn hmx hcmp hval hci
    unfold ArrayDefinition.make
    rw [if_neg (by simpa using hmn), if_neg (by simp [hmx]),
      if_neg (by simp [hcmp])]
    simp only [hval, hci, if_true]
  · intro dflt mn mx msg hmn hmx hcmp
    unfold TextDefinition.make
    rw [if_neg (by simp [hmn]), if_neg (by simp [hmx])]
    rcases mn with _ | a <;> rcases mx with _ | b
    · rfl
    · rfl
    · rfl
    · simp [not_lt.mpr (hcmp a b rfl rfl)]
  · intro mn mx df g msg h1 h2 h3 h4
    unfold IntervalDefinition.make
    simp only [Value.asNum]
    rw [if_neg (by simpa using not_lt.mpr h1), if_pos ⟨h2, h3⟩,
      if_neg (by simpa using not_le.mpr h4)]

/-- C2 witness. -/
theorem C2_witness :
    OptionsDefinition.make [.vStr "a"] (.vStr "b") false "m"
      = .error (.definitionInvalidity "default" "is invalid" none)
    ∧ ArrayDefinition.make
        (BooleanDefinition.validate_value ⟨false, "m"⟩) 0 none
        [.vNum 7] true
      = .error (.definitionInvalidity "default_elements" "is invalid" none)
    ∧ TextDefinition.make "" (some 3) (some 5) "m"
      = .ok ⟨"", some 3, some 5, "m"⟩
    ∧ IntervalDefinition.make (.vNum 0) (.vNum 10) (.vNum 3)
        (some (.vNum 2)) "m" = .ok ⟨0, 10, 3, some 2, "m"⟩ := by
  refine ⟨?_, ?_, ?_, ?_⟩
  · exact C2_default_validation.1 [.vStr "a"] (.vStr "b") false "m"
      (.controlInvalidity "m") (by simp) rfl rfl rfl rfl
  · exact C2_default_validation.2.1
      (BooleanDefinition.validate_value ⟨false, "m"⟩) 0 none [.vNum 7] true
      (.elementInvalidity 0 (.controlInvalidity "m")) (by norm_num) rfl rfl
      rfl rfl
  · exact C2_default_validation.2.2.1 "" (some 3) (some 5) "m" rfl rfl
      (by intro a b ha hb; cases ha; cases hb; norm_num)
  · exact C2_default_validation.2.2.2 0 10 3 2 "m" (by norm_num) (by norm_num)
      (by norm_num) (by norm_num)

end Vibecontrols

namespace Vibecontrols

theorem text_error_iff {d : TextDefinition} {v : Value} {e : Err} :
    d.validate_value v = .error e ↔ d.validateStr v = .error e := by
  unfold TextDefinition.validate_value
  cases h : d.validateStr v <;> simp [h, Except.map]

theorem text_ok_iff {d : TextDefinition} {v : Value} {s : String} :
    d.validate_value v = .ok (.vStr s) ↔ d.validateStr v = .ok s := by
  unfold TextDefinition.validate_value
  cases h : d.validateStr v <;> simp [h, Except.map]

theorem validateStr_vStr (d : TextDefinition) (s : String) :
    d.validateStr (.vStr s) =
      (if belowMin d.count_min (s.length : ℤ) then
        .error (.sizeConstraintViolation d.count_min d.count_max
          (s.length : ℤ) "Text character count")
      else if aboveMax d.count_max (s.length : ℤ) then
        .error (.sizeConstraintViolation d.count_min d.count_max
          (s.length : ℤ) "Text character count")
      else .ok s) := rfl

/-! ### Claim C9 -/

/-- C9: `TextDefinition.validate_value` rejects non-strings with the
definition's `ControlInvalidity` message, raises
`SizeConstraintViolation` when the character count is below `count_min`
or above `count_max` (both bounds inclusive), and otherwise returns the
string unchanged; `Text.clear` is `copy("")`, so clearing a control
whose definition has `count_min > 0` raises a
`SizeConstraintViolation` rather than producing a control. -/
theorem C9_text_validate_and_clear :
    (∀ (d : TextDefinition) (v : Value), (∀ s, v ≠ .vStr s) →
      d.validate_value v = .error (.controlInvalidity d.validation_message))
    ∧ (∀ (d : TextDefinition) (s : String) (m : ℤ), d.count_min = some m →
      (s.length : ℤ) < m →
      d.validate_value (.vStr s) = .error (.sizeConstraintViolation
        d.count_min d.count_max (s.length : ℤ) "Text character count"))
    ∧ (∀ (d : TextDefinition) (s : String) (m : ℤ),
      (∀ a, d.count_min = some a → a ≤ (s.length : ℤ)) →
      d.count_max = some m → m < (s.length : ℤ) →
      d.validate_value (.vStr s) = .error (.sizeConstraintViolation
        d.count_min d.count_max (s.length : ℤ) "Text character count"))
    ∧ (∀ (d : TextDefinition) (s : String),
      (∀ a, d.count_min = some a → a ≤ (s.length : ℤ)) →
      (∀ b, d.count_max = some b → (s.length : ℤ) ≤ b) →
      d.validate_value (.vStr s) = .ok (.vStr s))
    ∧ (∀ c : Text, c.clear = c.copy (.vStr ""))
    ∧ (∀ (c : Text) (m : ℤ), c.definition.count_min = some m → 0 < m →
      c.clear = .error (.sizeConstraintViolation c.definition.count_min
        c.definition.count_max 0 "Text character count")) := by
  have hbelow : ∀ (b : Option ℤ) (c : ℤ),
      (∀ a, b = some a → a ≤ c) → belowMin b c = false := by
    intro b c h
    cases b with
    | none => rfl
    | some a => simpa [belowMin] using h a rfl
  have habove : ∀ (b : Option ℤ) (c : ℤ),
      (∀ a, b = some a → c ≤ a) → aboveMax b c = false := by
    intro b c h
    cases b with
    | none => rfl
    | some a => simpa [aboveMax] using h a rfl
  refine ⟨?_, ?_, ?_, ?_, ?_, ?_⟩
  · intro d v hv
    rw [text_error_iff]
    cases v with
    | vStr s => exact absurd rfl (hv s)
    | vBool b => rfl
    | vNum q => rfl
    | vList xs => rfl
    | vTuple xs => rfl
  · intro d s m hm hlt
    rw [text_error_iff, validateStr_vStr]
    rw [if_pos (by simp [belowMin, hm, hlt])]
  · intro d s m hmn hm hlt
    rw [text_error_iff, validateStr_vStr]
    rw [if_neg (by simp [hbelow _ _ hmn]), if_pos (by simp [aboveMax, hm, hlt])]
  · intro d s hmn hmx
    rw [text_ok_iff, validateStr_vStr]
    rw [if_neg (by simp [hbelow _ _ hmn]), if_neg (by simp [habove _ _ hmx])]
  · intro c
    rfl
  · intro c m hm hpos
    show c.copy (.vStr "") = _
    unfold Text.copy
    rw [validateStr_vStr]
    rw [if_pos (by simp [belowMin, hm, hpos])]
    simp [String.length]

/-- C9 witness. -/
theorem C9_witness :
    (TextDefinition.mk "" (some 3) (some 5) "m").validate_value (.vNum 1)
      = .error (.controlInvalidity "m")
    ∧ (TextDefinition.mk "" (some 3) (some 5) "m").validate_value (.vStr "ab")
      = .error (.sizeConstraintViolation (some 3) (some 5) 2
          "Text character count")
    ∧ (TextDefinition.mk "" (some 3) (some 5) "m").validate_value
        (.vStr "abcdef")
      = .error (.sizeConstraintViolation (some 3) (some 5) 6
          "Text character count")
    ∧ (TextDefinition.mk "" (some 3) (some 5) "m").validate_value
        (.vStr "abc") = .ok (.vStr "abc")
    ∧ Text.clear ⟨⟨"", some 3, some 5, "m"⟩, "abc"⟩
      = .error (.sizeConstraintViolation (some 3) (some 5) 0
          "Text character count") := by
  refine ⟨?_, ?_, ?_, ?_, ?_⟩
  · exact C9_text_validate_and_clear.1 _ (.vNum 1) (by intro s h; cases h)
  · exact C9_text_validate_and_clear.2.1 _ "ab" 3 rfl (by decide)
  · exact C9_text_validate_and_clear.2.2.1 _ "abcdef" 5
      (by intro a ha; cases ha; decide) rfl (by decide)
  · exact C9_text_validate_and_clear.2.2.2.1 _ "abc"
      (by intro a ha; cases ha; decide) (by intro b hb; cases hb; decide)
  · exact C9_text_validate_and_clear.2.2.2.2.2 ⟨⟨"", some 3, some 5, "m"⟩,
      "abc"⟩ 3 rfl (by decide)

end Vibecontrols

namespace Vibecontrols

theorem interval_error_iff {d : IntervalDefinition} {v : Value} {e : Err} :
    d.validate_value v = .error e ↔ d.validateNum v = .error e := by
  unfold IntervalDefinition.validate_value
  cases h : d.validateNum v <;> simp [h, Except.map]

theorem interval_ok_iff {d : IntervalDefinition} {v : Value} {q : ℚ} :
    d.validate_value v = .ok (.vNum q) ↔ d.validateNum v = .ok q := by
  unfold IntervalDefinition.validate_value
  cases h : d.validateNum v <;> simp [h, Except.map]

theorem validateNum_bounds_error {d : IntervalDefinition} {q : ℚ}
    (hb : ¬ (d.minimum ≤ q ∧ q ≤ d.maximum)) :
    d.validateNum (.vNum q)
      = .error (.boundsConstraintViolation d.minimum d.maximum q) := by
  unfold IntervalDefinition.validateNum
  simp only [Value.asNum]
  rw [if_neg hb]

theorem stepOKb_shift {d : IntervalDefinition} {q g : ℚ}
    (hg : d.grade = some g) (hs : stepOKb d q = true) (k : ℤ) :
    stepOKb d (q + g * (k : ℚ)) = true := by
  simp only [stepOKb, hg, decide_eq_true_eq] at hs ⊢
  rcases eq_or_ne g 0 with rfl | hg0
  · simpa using hs
  · have hsteps : (q + g * (k : ℚ) - d.minimum) / g
        = (q - d.minimum) / g + (k : ℚ) := by
      field_simp
      ring
    rw [hsteps, pyRound_add_int k hs]
    have heq : (q - d.minimum) / g + (k : ℚ)
        - ((pyRound ((q - d.minimum) / g) + k : ℤ) : ℚ)
        = (q - d.minimum) / g - (pyRound ((q - d.minimum) / g) : ℚ) := by
      push_cast
      ring
    rw [heq]
    exact hs

/-! ### Claim C4 -/

/-- C4: for an `IntervalDefinition` with `grade` set (and positive, as
construction requires) and a numeric value within bounds,
`validate_value` succeeds exactly when the deviation of
`steps = (value - minimum) / grade` from `round(steps)` is strictly
below `1e-10`, and raises `StepConstraintViolation` otherwise. -/
theorem C4_step_validation :
    ∀ (d : IntervalDefinition) (g v : ℚ), d.grade = some g → 0 < g →
      d.minimum ≤ v → v ≤ d.maximum →
      ((|((v - d.minimum) / g) - (pyRound ((v - d.minimum) / g) : ℚ)|
          < FLOAT_EPSILON →
        d.validate_value (.vNum v) = .ok (.vNum v))
      ∧ (¬ (|((v - d.minimum) / g) - (pyRound ((v - d.minimum) / g) : ℚ)|
          < FLOAT_EPSILON) →
        d.validate_value (.vNum v)
          = .error (.stepConstraintViolation g d.minimum))) := by
  intro d g v hg hgpos hb1 hb2
  constructor
  · intro hdev
    rw [interval_ok_iff]
    exact validateNum_of hb1 hb2
      (by simp only [stepOKb, hg, decide_eq_true_eq]; exact hdev)
  · intro hdev
    rw [interval_error_iff]
    exact validateNum_step_error hg hb1 hb2 hdev

/-- C4 witness. -/
theorem C4_witness :
    (IntervalDefinition.mk 0 10 0 (some 5) "m").validate_value (.vNum 5)
      = .ok (.vNum 5)
    ∧ (IntervalDefinition.mk 0 10 0 (some 5) "m").validate_value (.vNum 3)
      = .error (.stepConstraintViolation 5 0) := by
  constructor
  · apply (C4_step_validation ⟨0, 10, 0, some 5, "m"⟩ 5 5 rfl (by norm_num)
      (by norm_num) (by norm_num)).1
    have h1 : ((5 : ℚ) - 0) / 5 = ((1 : ℤ) : ℚ) := by norm_num
    rw [h1, pyRound_intCast]
    norm_num [FLOAT_EPSILON]
  · apply (C4_step_validation ⟨0, 10, 0, some 5, "m"⟩ 5 3 rfl (by norm_num)
      (by norm_num) (by norm_num)).2
    have h1 : ((3 : ℚ) - 0) / 5 = 3 / 5 := by norm_num
    rw [h1]
    have h2 : pyRound ((3 : ℚ) / 5) = 1 := by
      apply pyRound_eq_of_abs_lt
      rw [abs_sub_lt_iff]
      norm_num
    rw [h2]
    rw [FLOAT_EPSILON, not_lt, abs_sub_comm, le_abs]
    left
    norm_num

/-! ### Claim C3 -/

/-- C3 counterexample: the Interval definition with bounds 0..10,
grade 2 and (unvalidated) misaligned default 3 constructs, produces a
control holding 3, and `increment()` then raises a
`StepConstraintViolation` — although 3 + 2 = 5 lies inside the bounds,
so the claim demanded a new control holding 5 (with
`BoundsConstraintViolation` as the only permitted failure). -/
theorem C3_counterexample :
    IntervalDefinition.make (.vNum 0) (.vNum 10) (.vNum 3) (some (.vNum 2))
      "Value must be numeric"
      = .ok ⟨0, 10, 3, some 2, "Value must be numeric"⟩
    ∧ (IntervalDefinition.mk 0 10 3 (some 2)
        "Value must be numeric").produce_control none
      = .ok ⟨⟨0, 10, 3, some 2, "Value must be numeric"⟩, 3⟩
    ∧ Interval.increment ⟨⟨0, 10, 3, some 2, "Value must be numeric"⟩, 3⟩
      = .error (.stepConstraintViolation 2 0)
    ∧ (0 : ℚ) ≤ 3 + 2 ∧ (3 : ℚ) + 2 ≤ 10 := by
  refine ⟨rfl, rfl, ?_, by norm_num, by norm_num⟩
  show Interval.copy _ (.vNum (3 + 2)) = _
  unfold Interval.copy
  have hv : (IntervalDefinition.mk 0 10 3 (some 2)
      "Value must be numeric").validateNum (.vNum (3 + 2))
      = .error (.stepConstraintViolation 2 0) := by
    apply validateNum_step_error rfl (by norm_num) (by norm_num)
    have h1 : ((3 : ℚ) + 2 - 0) / 2 = ((2 : ℤ) : ℚ) + 1/2 := by
      push_cast
      norm_num
    rw [h1, pyRound_add_half, if_pos (by decide)]
    rw [FLOAT_EPSILON]
    push_cast
    rw [abs_sub_lt_iff]
    norm_num
  rw [hv]

end Vibecontrols

namespace Vibecontrols

/-- C3 (corrected): for every Interval control whose current value
satisfies its definition's `validate_value` (the spec's control
invariant — which the code does not guarantee for controls minted from
an unvalidated default): with `grade` absent, `increment`/`decrement`
raise `IncrementOperationFailure`; with `grade = g`, they produce a new
control holding `current ± g`, except that a result outside
`[minimum, maximum]` raises `BoundsConstraintViolation` (no clamping,
no control produced). -/
theorem C3_increment_decrement :
    ∀ c : Interval, c.Valid →
      (c.definition.grade = none →
        c.increment = .error (.incrementOperationFailure "increment")
        ∧ c.decrement = .error (.incrementOperationFailure "decrement"))
      ∧ (∀ g, c.definition.grade = some g →
        ((c.definition.minimum ≤ c.current + g ∧
            c.current + g ≤ c.definition.maximum) →
          c.increment = .ok ⟨c.definition, c.current + g⟩)
        ∧ (¬ (c.definition.minimum ≤ c.current + g ∧
            c.current + g ≤ c.definition.maximum) →
          c.increment = .error (.boundsConstraintViolation
            c.definition.minimum c.definition.maximum (c.current + g)))
        ∧ ((c.definition.minimum ≤ c.current - g ∧
            c.current - g ≤ c.definition.maximum) →
          c.decrement = .ok ⟨c.definition, c.current - g⟩)
        ∧ (¬ (c.definition.minimum ≤ c.current - g ∧
            c.current - g ≤ c.definition.maximum) →
          c.decrement = .error (.boundsConstraintViolation
            c.definition.minimum c.definition.maximum (c.current - g)))) := by
  intro c hv
  rw [Interval.Valid, interval_ok_iff] at hv
  obtain ⟨-, -, -, hstep⟩ := validateNum_ok_elim hv
  constructor
  · intro hg
    unfold Interval.increment Interval.decrement
    rw [hg]
    exact ⟨rfl, rfl⟩
  · intro g hg
    have hinc : stepOKb c.definition (c.current + g) = true := by
      have := stepOKb_shift hg hstep 1
      simpa using this
    have hdec : stepOKb c.definition (c.current - g) = true := by
      have := stepOKb_shift hg hstep (-1)
      push_cast at this
      rw [mul_neg_one] at this
      simpa [sub_eq_add_neg] using this
    refine ⟨?_, ?_, ?_, ?_⟩
    · intro hb
      unfold Interval.increment
      simp only [hg]
      unfold Interval.copy
      rw [validateNum_of hb.1 hb.2 hinc]
    · intro hb
      unfold Interval.increment
      simp only [hg]
      unfold Interval.copy
      rw [validateNum_bounds_error hb]
    · intro hb
      unfold Interval.decrement
      simp only [hg]
      unfold Interval.copy
      rw [validateNum_of hb.1 hb.2 hdec]
    · intro hb
      unfold Interval.decrement
      simp only [hg]
      unfold Interval.copy
      rw [validateNum_bounds_error hb]

/-- C3 witness: the spec's scenario — interval 0..10, grade 5, current
0: two increments reach 10 and a third fails with
`BoundsConstraintViolation`; a decrement from 0 fails likewise; a
continuous interval cannot be stepped. -/
theorem C3_witness :
    Interval.increment ⟨⟨0, 10, 0, some 5, "m"⟩, 0⟩
      = .ok ⟨⟨0, 10, 0, some 5, "m"⟩, 0 + 5⟩
    ∧ Interval.increment ⟨⟨0, 10, 0, some 5, "m"⟩, 10⟩
      = .error (.boundsConstraintViolation 0 10 (10 + 5))
    ∧ Interval.decrement ⟨⟨0, 10, 0, some 5, "m"⟩, 0⟩
      = .error (.boundsConstraintViolation 0 10 (0 - 5))
    ∧ Interval.increment ⟨⟨0, 10, 0, none, "m"⟩, 0⟩
      = .error (.incrementOperationFailure "increment") := by
  have hs0 : stepOKb ⟨0, 10, 0, some 5, "m"⟩ 0 = true := by
    simp only [stepOKb, decide_eq_true_eq]
    have h1 : ((0 : ℚ) - 0) / 5 = ((0 : ℤ) : ℚ) := by norm_num
    rw [h1, pyRound_intCast]
    norm_num [FLOAT_EPSILON]
  have hv0 : Interval.Valid ⟨⟨0, 10, 0, some 5, "m"⟩, 0⟩ := by
    rw [Interval.Valid, interval_ok_iff]
    exact validateNum_of (by norm_num) (by norm_num) hs0
  have hs10 : stepOKb ⟨0, 10, 0, some 5, "m"⟩ 10 = true := by
    simp only [stepOKb, decide_eq_true_eq]
    have h1 : ((10 : ℚ) - 0) / 5 = ((2 : ℤ) : ℚ) := by
      push_cast
      norm_num
    rw [h1, pyRound_intCast]
    norm_num [FLOAT_EPSILON]
  have hv10 : Interval.Valid ⟨⟨0, 10, 0, some 5, "m"⟩, 10⟩ := by
    rw [Interval.Valid, interval_ok_iff]
    exact validateNum_of (by norm_num) (by norm_num) hs10
  refine ⟨?_, ?_, ?_, ?_⟩
  · exact ((C3_increment_decrement _ hv0).2 5 rfl).1 (by norm_num)
  · exact ((C3_increment_decrement _ hv10).2 5 rfl).2.1 (by norm_num)
  · exact ((C3_increment_decrement _ hv0).2 5 rfl).2.2.2 (by norm_num)
  · exact ((C3_increment_decrement ⟨⟨0, 10, 0, none, "m"⟩, 0⟩ (by rw [Interval.Valid, interval_ok_iff]; exact validateNum_of (by norm_num) (by norm_num) rfl)).1 rfl).1

end Vibecontrols

namespace Vibecontrols

theorem validateNum_of_asNum {d : IntervalDefinition} {v : Value} {q : ℚ}
    (ha : v.asNum = some q) (hb1 : d.minimum ≤ q) (hb2 : q ≤ d.maximum)
    (hs : stepOKb d q = true) : d.validateNum v = .ok q := by
  unfold IntervalDefinition.validateNum
  rw [ha]
  simp only
  rw [if_pos ⟨hb1, hb2⟩]
  cases hg : d.grade with
  | none => rfl
  | some g =>
    simp only [stepOKb, hg, decide_eq_true_eq] at hs
    simp only [if_pos hs]

/-! ### Claim C10 -/

/-- C10 counterexample: the IntervalDefinition with bounds 0..10
(containing 0 and 1) and grade 3 constructs, but `validate_value(True)`
raises a `StepConstraintViolation` instead of accepting True as the
number 1 — the claim omits the step-alignment requirement. -/
theorem C10_counterexample :
    IntervalDefinition.make (.vNum 0) (.vNum 10) (.vNum 0) (some (.vNum 3))
      "Value must be numeric"
      = .ok ⟨0, 10, 0, some 3, "Value must be numeric"⟩
    ∧ (IntervalDefinition.mk 0 10 0 (some 3)
        "Value must be numeric").validate_value (.vBool true)
      = .error (.stepConstraintViolation 3 0) := by
  refine ⟨rfl, ?_⟩
  rw [interval_error_iff]
  unfold IntervalDefinition.validateNum
  simp only [Value.asNum, if_true]
  rw [if_pos (by norm_num)]
  rw [if_neg ?_]
  have h1 : ((1 : ℚ) - 0) / 3 = 1 / 3 := by norm_num
  rw [h1]
  have h2 : pyRound ((1 : ℚ) / 3) = 0 := by
    apply pyRound_eq_of_abs_lt
    rw [abs_sub_lt_iff]
    norm_num
  rw [h2, FLOAT_EPSILON]
  push_cast
  rw [abs_sub_lt_iff]
  norm_num

/-- C10 (corrected): Interval's numeric-kind check admits Python
booleans (`bool` is a subclass of `int`), so for an IntervalDefinition
whose bounds contain the value and which — when a grade is set —
step-aligns it, `validate_value` accepts True as 1 and False as 0 and
returns the float; the rejection is asymmetric, since
`BooleanDefinition.validate_value` rejects every number. -/
theorem C10_bool_numeric_asymmetry :
    (∀ d : IntervalDefinition, d.minimum ≤ 1 → 1 ≤ d.maximum →
      stepOKb d 1 = true →
      d.validate_value (.vBool true) = .ok (.vNum 1))
    ∧ (∀ d : IntervalDefinition, d.minimum ≤ 0 → 0 ≤ d.maximum →
      stepOKb d 0 = true →
      d.validate_value (.vBool false) = .ok (.vNum 0))
    ∧ (∀ (bd : BooleanDefinition) (q : ℚ),
      bd.validate_value (.vNum q)
        = .error (.controlInvalidity bd.validation_message)) := by
  refine ⟨?_, ?_, ?_⟩
  · intro d h1 h2 hs
    rw [interval_ok_iff]
    exact validateNum_of_asNum (by simp [Value.asNum]) h1 h2 hs
  · intro d h1 h2 hs
    rw [interval_ok_iff]
    exact validateNum_of_asNum (by simp [Value.asNum]) h1 h2 hs
  · intro bd q
    rfl

/-- C10 witness: a continuous interval -5..5 accepts both booleans;
Boolean rejects the number 7. -/
theorem C10_witness :
    (IntervalDefinition.mk (-5) 5 0 none "m").validate_value (.vBool true)
      = .ok (.vNum 1)
    ∧ (IntervalDefinition.mk (-5) 5 0 none "m").validate_value (.vBool false)
      = .ok (.vNum 0)
    ∧ (BooleanDefinition.mk false "Value must be a boolean").validate_value
        (.vNum 7)
      = .error (.controlInvalidity "Value must be a boolean") := by
  refine ⟨?_, ?_, ?_⟩
  · exact C10_bool_numeric_asymmetry.1 ⟨-5, 5, 0, none, "m"⟩ (by norm_num)
      (by norm_num) rfl
  · exact C10_bool_numeric_asymmetry.2.1 ⟨-5, 5, 0, none, "m"⟩ (by norm_num)
      (by norm_num) rfl
  · exact C10_bool_numeric_asymmetry.2.2 ⟨false, "Value must be a boolean"⟩ 7

end Vibecontrols

namespace Vibecontrols

/-! ### Claim C5 -/

/-- C5: multi-select `validate_value` — an empty sequence raises
`SizeConstraintViolation` with minimum 1; the first member that is not
value-equal to any choice is named in a `SelectionConstraintViolation`;
a repeated member raises `UniquenessConstraintViolation`; otherwise the
members are returned as an immutable tuple preserving input order. -/
theorem C5_multiselect_validate :
    ∀ (d : OptionsDefinition) (v : Value) (xs : List Value),
      d.allow_multiple = true → v.asSeq = some xs →
      ((xs = [] → d.validate_value v
        = .error (.sizeConstraintViolation (some 1) none 0 "Selection count"))
      ∧ (∀ i (h : i < xs.length),
          pyMem (xs.get ⟨i, h⟩) d.choices = false →
          (∀ j (hj : j < i),
            pyMem (xs.get ⟨j, Nat.lt_trans hj h⟩) d.choices = true) →
          d.validate_value v
            = .error (.selectionConstraintViolation (xs.get ⟨i, h⟩)))
      ∧ ((∀ x ∈ xs, pyMem x d.choices = true) → hasPyDup xs = true →
          d.validate_value v
            = .error (.uniquenessConstraintViolation none true))
      ∧ ((∀ x ∈ xs, pyMem x d.choices = true) → hasPyDup xs = false →
          xs ≠ [] → d.validate_value v = .ok (.vTuple xs))) := by
  intro d v xs ham hseq
  unfold OptionsDefinition.validate_value
  rw [if_pos ham, hseq]
  simp only
  refine ⟨?_, ?_, ?_, ?_⟩
  · rintro rfl
    simp
  · intro i h hmem hprev
    have hne : xs ≠ [] := by
      intro hnil
      rw [hnil] at h
      exact absurd h (by simp)
    rw [if_neg (by simp only [List.isEmpty_iff]; exact hne)]
    have hf : xs.find? (fun item => ! pyMem item d.choices)
        = some (xs.get ⟨i, h⟩) := by
      rw [List.find?_eq_some_iff_getElem]
      refine ⟨by simp only [List.get_eq_getElem] at hmem; simp [hmem],
        i, h, by simp [List.get_eq_getElem], ?_⟩
      intro j hj
      have hpj := hprev j hj
      simp only [List.get_eq_getElem] at hpj
      simp [hpj]
    rw [hf]
  · intro hall hdup
    have hne : xs ≠ [] := by
      intro hnil
      rw [hnil] at hdup
      exact absurd hdup (by simp [hasPyDup])
    rw [if_neg (by simp only [List.isEmpty_iff]; exact hne)]
    have hf : xs.find? (fun item => ! pyMem item d.choices) = none := by
      rw [List.find?_eq_none]
      intro x hx
      simp [hall x hx]
    rw [hf]
    simp only [hdup, if_true]
  · intro hall hdup hne
    rw [if_neg (by simp only [List.isEmpty_iff]; exact hne)]
    have hf : xs.find? (fun item => ! pyMem item d.choices) = none := by
      rw [List.find?_eq_none]
      intro x hx
      simp [hall x hx]
    rw [hf]
    simp only [hdup, Bool.false_eq_true, if_false]

/-- C5 witness: choices a,b,c — the spec's multi-select scenarios. -/
theorem C5_witness :
    (OptionsDefinition.mk [.vStr "a", .vStr "b", .vStr "c"]
      (.vList [.vStr "a"]) true "m").validate_value (.vList [])
      = .error (.sizeConstraintViolation (some 1) none 0 "Selection count")
    ∧ (OptionsDefinition.mk [.vStr "a", .vStr "b", .vStr "c"]
      (.vList [.vStr "a"]) true "m").validate_value
        (.vList [.vStr "a", .vStr "x"])
      = .error (.selectionConstraintViolation (.vStr "x"))
    ∧ (OptionsDefinition.mk [.vStr "a", .vStr "b", .vStr "c"]
      (.vList [.vStr "a"]) true "m").validate_value
        (.vList [.vStr "a", .vStr "a"])
      = .error (.uniquenessConstraintViolation none true)
    ∧ (OptionsDefinition.mk [.vStr "a", .vStr "b", .vStr "c"]
      (.vList [.vStr "a"]) true "m").validate_value
        (.vList [.vStr "b", .vStr "a"])
      = .ok (.vTuple [.vStr "b", .vStr "a"]) := by
  refine ⟨?_, ?_, ?_, ?_⟩
  · exact (C5_multiselect_validate
      (OptionsDefinition.mk [.vStr "a", .vStr "b", .vStr "c"]
        (.vList [.vStr "a"]) true "m") (.vList []) [] rfl rfl).1 rfl
  · exact (C5_multiselect_validate
      (OptionsDefinition.mk [.vStr "a", .vStr "b", .vStr "c"]
        (.vList [.vStr "a"]) true "m") (.vList [.vStr "a", .vStr "x"])
      [.vStr "a", .vStr "x"] rfl rfl).2.1 1 (by decide) (by decide)
      (by
        intro j hj
        have hj0 : j = 0 := by omega
        subst hj0
        exact (by decide : pyMem (Value.vStr "a")
          [Value.vStr "a", Value.vStr "b", Value.vStr "c"] = true))
  · exact (C5_multiselect_validate
      (OptionsDefinition.mk [.vStr "a", .vStr "b", .vStr "c"]
        (.vList [.vStr "a"]) true "m") (.vList [.vStr "a", .vStr "a"])
      [.vStr "a", .vStr "a"] rfl rfl).2.2.1 (by decide) (by decide)
  · exact (C5_multiselect_validate
      (OptionsDefinition.mk [.vStr "a", .vStr "b", .vStr "c"]
        (.vList [.vStr "a"]) true "m") (.vList [.vStr "b", .vStr "a"])
      [.vStr "b", .vStr "a"] rfl rfl).2.2.2 (by decide) (by decide)
      (by simp)

end Vibecontrols

theorem findIdx?_first {α : Type} {p : α → Bool} :
    ∀ (xs : List α) (i : ℕ) (h : i < xs.length),
      p (xs.get ⟨i, h⟩) = true →
      (∀ j (hj : j < i), p (xs.get ⟨j, Nat.lt_trans hj h⟩) = false) →
      xs.findIdx? p = some i := by
  intro xs
  induction xs with
  | nil =>
    intro i h
    exact absurd h (by simp)
  | cons x xs ih =>
    intro i h hp hprev
    cases i with
    | zero =>
      simp only [List.get] at hp
      simp [List.findIdx?_cons, hp]
    | succ i =>
      have hx : p x = false := by
        simpa using hprev 0 (Nat.succ_pos i)
      rw [List.findIdx?_cons, if_neg (by simp [hx]), List.findIdx?_succ]
      have hrec := ih i (by simpa using h) (by simpa using hp)
        (fun j hj => by simpa using hprev (j + 1) (Nat.succ_lt_succ hj))
      rw [hrec]
      rfl

theorem emod_pred_eq {i n : ℕ} (h : i < n) :
    (((i : ℤ) - 1).emod (n : ℤ)).toNat = (i + (n - 1)) % n := by
  have hn : 0 < n := Nat.lt_of_le_of_lt (Nat.zero_le i) h
  cases i with
  | zero =>
    have h1 : (((0 : ℕ) : ℤ) - 1).emod (n : ℤ) = ((n : ℤ) - 1) := by
      show (((0 : ℕ) : ℤ) - 1) % (n : ℤ) = ((n : ℤ) - 1)
      have h2 : (((0 : ℕ) : ℤ) - 1) = ((n : ℤ) - 1) + (n : ℤ) * (-1) := by
        push_cast
        ring
      rw [h2, Int.add_mul_emod_self_left]
      exact Int.emod_eq_of_lt (by omega) (by omega)
    rw [h1]
    have h3 : (0 + (n - 1)) % n = n - 1 := by
      rw [Nat.zero_add]
      exact Nat.mod_eq_of_lt (by omega)
    rw [h3]
    omega
  | succ i =>
    have h1 : (((i + 1 : ℕ) : ℤ) - 1).emod (n : ℤ) = (i : ℤ) := by
      show (((i + 1 : ℕ) : ℤ) - 1) % (n : ℤ) = (i : ℤ)
      have h2 : (((i + 1 : ℕ) : ℤ) - 1) = (i : ℤ) := by
        push_cast
        ring
      rw [h2]
      exact Int.emod_eq_of_lt (by omega) (by omega)
    rw [h1]
    have h3 : (i + 1 + (n - 1)) % n = i := by
      have h4 : i + 1 + (n - 1) = i + n := by omega
      rw [h4, Nat.add_mod_right]
      exact Nat.mod_eq_of_lt (by omega)
    rw [h3]
    omega

namespace Vibecontrols

/-! ### Claim C6 -/

/-- C6: `cycle_next`/`cycle_previous` raise `CycleOperationFailure` on a
multi-select control; on single-select they locate the current value's
position in `choices` as the first value-equal match and return a
control holding the choice at that index plus/minus one modulo the
choice count, wrapping around in both directions. -/
theorem C6_cycle :
    ∀ c : Options,
      (c.definition.allow_multiple = true →
        c.cycle_next = .error .cycleOperationFailure
        ∧ c.cycle_previous = .error .cycleOperationFailure)
      ∧ (c.definition.allow_multiple = false →
        ∀ i (h : i < c.definition.choices.length),
          pyEq (c.definition.choices.get ⟨i, h⟩) c.current = true →
          (∀ j (hj : j < i),
            pyEq (c.definition.choices.get ⟨j, Nat.lt_trans hj h⟩) c.current
              = false) →
          c.cycle_next = .ok ⟨c.definition, c.definition.choices.get
            ⟨(i + 1) % c.definition.choices.length,
              Nat.mod_lt _ (Nat.lt_of_le_of_lt (Nat.zero_le i) h)⟩⟩
          ∧ c.cycle_previous = .ok ⟨c.definition, c.definition.choices.get
            ⟨(i + (c.definition.choices.length - 1))
                % c.definition.choices.length,
              Nat.mod_lt _ (Nat.lt_of_le_of_lt (Nat.zero_le i) h)⟩⟩) := by
  intro c
  constructor
  · intro ham
    constructor
    · unfold Options.cycle_next
      rw [if_pos ham]
    · unfold Options.cycle_previous
      rw [if_pos ham]
  · intro ham i h hmatch hprev
    have hn : 0 < c.definition.choices.length :=
      Nat.lt_of_le_of_lt (Nat.zero_le i) h
    have hidx : c.definition.choices.findIdx?
        (fun ch => pyEq ch c.current) = some i :=
      findIdx?_first c.definition.choices i h hmatch hprev
    have hcopy : ∀ m (hm : m < c.definition.choices.length),
        c.copy (c.definition.choices.getD m (.vNum 0))
          = .ok ⟨c.definition, c.definition.choices.get ⟨m, hm⟩⟩ := by
      intro m hm
      unfold Options.copy OptionsDefinition.validate_value
      rw [if_neg (by simp [ham])]
      rw [List.getD_eq_getElem _ _ hm]
      rw [if_pos (pyMem_of_mem (by exact List.getElem_mem hm))]
      rw [List.get_eq_getElem]
    constructor
    · unfold Options.cycle_next
      rw [if_neg (by simp [ham]), hidx]
      simp only
      exact hcopy ((i + 1) % c.definition.choices.length)
        (Nat.mod_lt _ hn)
    · unfold Options.cycle_previous
      rw [if_neg (by simp [ham]), hidx]
      simp only
      rw [emod_pred_eq h]
      exact hcopy ((i + (c.definition.choices.length - 1))
          % c.definition.choices.length)
        (Nat.mod_lt _ hn)

/-- C6 witness: choices a,b,c — from "a", `cycle_previous` wraps to "c"
and from "c", `cycle_next` wraps to "a"; a multi-select control cannot
cycle. -/
theorem C6_witness :
    Options.cycle_previous ⟨⟨[.vStr "a", .vStr "b", .vStr "c"],
        .vStr "a", false, "m"⟩, .vStr "a"⟩
      = .ok ⟨⟨[.vStr "a", .vStr "b", .vStr "c"], .vStr "a", false, "m"⟩,
          .vStr "c"⟩
    ∧ Options.cycle_next ⟨⟨[.vStr "a", .vStr "b", .vStr "c"],
        .vStr "a", false, "m"⟩, .vStr "c"⟩
      = .ok ⟨⟨[.vStr "a", .vStr "b", .vStr "c"], .vStr "a", false, "m"⟩,
          .vStr "a"⟩
    ∧ Options.cycle_next ⟨⟨[.vStr "a", .vStr "b"],
        .vList [.vStr "a"], true, "m"⟩, .vTuple [.vStr "a"]⟩
      = .error .cycleOperationFailure := by
  refine ⟨?_, ?_, ?_⟩
  · exact ((C6_cycle ⟨⟨[.vStr "a", .vStr "b", .vStr "c"], .vStr "a", false,
      "m"⟩, .vStr "a"⟩).2 rfl 0 (by decide) (by decide)
      (by intro j hj; omega)).2
  · exact ((C6_cycle ⟨⟨[.vStr "a", .vStr "b", .vStr "c"], .vStr "a", false,
      "m"⟩, .vStr "c"⟩).2 rfl 2 (by decide) (by decide)
      (by
        intro j hj
        have : j = 0 ∨ j = 1 := by omega
        rcases this with rfl | rfl
        · exact (by decide : pyEq (Value.vStr "a") (Value.vStr "c") = false)
        · exact (by decide :
            pyEq (Value.vStr "b") (Value.vStr "c") = false))).1
  · exact ((C6_cycle ⟨⟨[.vStr "a", .vStr "b"], .vList [.vStr "a"], true,
      "m"⟩, .vTuple [.vStr "a"]⟩).1 rfl).1

end Vibecontrols

namespace Vibecontrols

theorem validateElements_error_at {ev : Value → Except Err Value} :
    ∀ (xs : List Value) (k i : ℕ) (h : i < xs.length) {e : Err},
      (∀ j (hj : j < i), ∃ w, ev (xs.get ⟨j, Nat.lt_trans hj h⟩) = .ok w) →
      ev (xs.get ⟨i, h⟩) = .error e → e.isControlInvalidity = true →
      validateElements ev k xs = .error (.elementInvalidity (k + i) e) := by
  intro xs
  induction xs with
  | nil =>
    intro k i h
    exact absurd h (by simp)
  | cons x xs ih =>
    intro k i h e hprev herr hci
    cases i with
    | zero =>
      simp only [List.get] at herr
      simp only [validateElements, herr, hci, if_true, Nat.add_zero]
    | succ i =>
      obtain ⟨w, hw⟩ := hprev 0 (Nat.succ_pos i)
      simp only [List.get] at hw
      simp only [validateElements, hw]
      have hrec := ih (k + 1) i (by simpa using h) (fun j hj => by
        simpa using hprev (j + 1) (Nat.succ_lt_succ hj))
        (by simpa using herr) hci
      rw [hrec]
      have : k + 1 + i = k + (i + 1) := by omega
      rw [this]

theorem dupScan_stops_unhashable :
    ∀ (pre : List Value) (x : Value) (rest : List Value) (k : ℕ)
      (seen : List Value),
      (∀ y ∈ pre, pyHashable y = true) →
      List.Pairwise (fun a b => pyEq b a = false) pre →
      (∀ y ∈ pre, ∀ s ∈ seen, pyEq y s = false) →
      pyHashable x = false →
      dupScan k seen (pre ++ x :: rest)
        = .error (.uniquenessConstraintViolation (some (k + pre.length))
            false) := by
  intro pre
  induction pre with
  | nil =>
    intro x rest k seen _ _ _ hx
    simp only [List.nil_append, dupScan, hx, Bool.not_false, if_true,
      List.length_nil, Nat.add_zero]
  | cons p pre ih =>
    intro x rest k seen hhash hpw hseen hx
    rw [List.cons_append]
    simp only [dupScan, hhash p (by simp), Bool.not_true, Bool.false_eq_true,
      if_false]
    rw [if_neg ?hseenp]
    case hseenp =>
      simp only [List.any_eq_true, not_exists, not_and]
      intro s hs hps
      rw [hseen p (by simp) s hs] at hps
      cases hps
    rw [List.pairwise_cons] at hpw
    have hrec := ih x rest (k + 1) (p :: seen)
      (fun y hy => hhash y (by simp [hy])) hpw.2
      (fun y hy s hs => by
        rcases List.mem_cons.mp hs with rfl | hs2
        · exact hpw.1 y hy
        · exact hseen y (by simp [hy]) s hs2) hx
    rw [hrec]
    have : k + 1 + pre.length = k + (p :: pre).length := by simp; omega
    rw [this]

/-! ### Claim C8 -/

/-- C8: `ArrayDefinition.validate_value` checks the overall length
against `[size_min, size_max]` and raises `SizeConstraintViolation`
before any element-level validation (the conclusion holds for every
element validator); an element failure is wrapped as `ElementInvalidity`
carrying the zero-based index and the original cause; and with
`allow_duplicates = False` an element that is not hashable is reported
as a `UniquenessConstraintViolation` flagged not-hashable at its index,
not as a generic type error. -/
theorem C8_array_validate :
    (∀ (d : ArrayDefinition) (v : Value) (xs : List Value),
      v.asSeq = some xs →
      ((xs.length : ℤ) < d.size_min ∨ aboveMax d.size_max (xs.length : ℤ)
        = true) →
      d.validate_value v = .error (.sizeConstraintViolation (some d.size_min)
        d.size_max (xs.length : ℤ) "Array size"))
    ∧ (∀ (d : ArrayDefinition) (v : Value) (xs : List Value) (i : ℕ)
        (h : i < xs.length) (e : Err),
      v.asSeq = some xs →
      ¬ (xs.length : ℤ) < d.size_min →
      aboveMax d.size_max (xs.length : ℤ) = false →
      (∀ j (hj : j < i), ∃ w,
        d.elemValidate (xs.get ⟨j, Nat.lt_trans hj h⟩) = .ok w) →
      d.elemValidate (xs.get ⟨i, h⟩) = .error e →
      e.isControlInvalidity = true →
      d.validate_value v = .error (.elementInvalidity i e))
    ∧ (∀ (d : ArrayDefinition) (v : Value) (xs ys : List Value) (i : ℕ)
        (h : i < ys.length),
      d.allow_duplicates = false →
      v.asSeq = some xs →
      ¬ (xs.length : ℤ) < d.size_min →
      aboveMax d.size_max (xs.length : ℤ) = false →
      validateElements d.elemValidate 0 xs = .ok ys →
      (∀ y ∈ ys.take i, pyHashable y = true) →
      List.Pairwise (fun a b => pyEq b a = false) (ys.take i) →
      pyHashable (ys.get ⟨i, h⟩) = false →
      d.validate_value v
        = .error (.uniquenessConstraintViolation (some i) false)) := by
  refine ⟨?_, ?_, ?_⟩
  · intro d v xs hseq hsz
    unfold ArrayDefinition.validate_value ArrayDefinition.validateList
    rw [hseq]
    simp only
    rcases hsz with hlt | hgt
    · rw [if_pos hlt]
      rfl
    · by_cases hlt : (xs.length : ℤ) < d.size_min
      · rw [if_pos hlt]
        rfl
      · rw [if_neg hlt, if_pos hgt]
        rfl
  · intro d v xs i h e hseq hmin hmax hprev herr hci
    unfold ArrayDefinition.validate_value ArrayDefinition.validateList
    rw [hseq]
    simp only
    rw [if_neg hmin, if_neg (by simp [hmax])]
    have := validateElements_error_at xs 0 i h hprev herr hci
    rw [Nat.zero_add] at this
    rw [this]
    rfl
  · intro d v xs ys i h hdup hseq hmin hmax hval htake hpw hunh
    unfold ArrayDefinition.validate_value ArrayDefinition.validateList
    rw [hseq]
    simp only
    rw [if_neg hmin, if_neg (by simp [hmax]), hval]
    simp only [hdup, Bool.false_eq_true, if_false]
    have hys : ys = ys.take i ++ ys.get ⟨i, h⟩ :: ys.drop (i + 1) := by
      rw [List.get_eq_getElem, List.getElem_cons_drop,
        List.take_append_drop]
    rw [hys]
    have hscan := dupScan_stops_unhashable (ys.take i) (ys.get ⟨i, h⟩)
      (ys.drop (i + 1)) 0 [] htake hpw (by simp) hunh
    rw [hscan]
    have hlen : (ys.take i).length = i := List.length_take_of_le (le_of_lt h)
    rw [Nat.zero_add, hlen]
    rfl

end Vibecontrols

namespace Vibecontrols

/-- C8 witness: a too-short sequence fails on size even though its
element would also fail; a bad element is wrapped with its index; an
unhashable (list-valued) element under a uniqueness requirement is
flagged not-hashable.  The third part uses an identity element
validator, standing for an external Definition whose validated values
are Python lists. -/
theorem C8_witness :
    (ArrayDefinition.mk
      (BooleanDefinition.validate_value ⟨false, "b"⟩) 2 none [] true
      ).validate_value (.vList [.vNum 7])
      = .error (.sizeConstraintViolation (some 2) none 1 "Array size")
    ∧ (ArrayDefinition.mk
      (BooleanDefinition.validate_value ⟨false, "b"⟩) 0 none [] true
      ).validate_value (.vList [.vBool true, .vNum 7])
      = .error (.elementInvalidity 1 (.controlInvalidity "b"))
    ∧ (ArrayDefinition.mk (fun v => .ok v) 0 none [] false).validate_value
        (.vList [.vList []])
      = .error (.uniquenessConstraintViolation (some 0) false) := by
  refine ⟨?_, ?_, ?_⟩
  · exact C8_array_validate.1
      (ArrayDefinition.mk (BooleanDefinition.validate_value ⟨false, "b"⟩) 2
        none [] true)
      (.vList [.vNum 7]) [.vNum 7] rfl (Or.inl (by norm_num))
  · exact C8_array_validate.2.1
      (ArrayDefinition.mk (BooleanDefinition.validate_value ⟨false, "b"⟩) 0
        none [] true)
      (.vList [.vBool true, .vNum 7]) [.vBool true, .vNum 7] 1 (by norm_num)
      (.controlInvalidity "b") rfl (by norm_num) rfl
      (by
        intro j hj
        have hj0 : j = 0 := by omega
        subst hj0
        exact ⟨.vBool true, rfl⟩)
      rfl rfl
  · exact C8_array_validate.2.2
      (ArrayDefinition.mk (fun v => .ok v) 0 none [] false)
      (.vList [.vList []]) [.vList []] [.vList []] 0 (by norm_num) rfl rfl
      (by norm_num) rfl rfl (by simp) (by simp) rfl

end Vibecontrols

namespace Vibecontrols

theorem gather_getD {xs : List Value} {no : List ℤ} (i : ℕ)
    (hi : i < no.length) :
    (no.map (fun j => xs.getD j.toNat (.vNum 0))).getD i (.vNum 0)
      = xs.getD ((no.getD i 0).toNat) (.vNum 0) := by
  rw [List.getD_eq_getElem _ _ (by simpa using hi), List.getElem_map,
    List.getD_eq_getElem _ _ hi]

theorem sameIndexSet_bound {no : List ℤ} {n : ℕ}
    (hset : sameIndexSet no n = true) {i : ℕ} (hi : i < no.length) :
    (no.getD i 0).toNat < n := by
  rw [sameIndexSet, Bool.and_eq_true] at hset
  have hb := List.all_eq_true.mp hset.2 (no.getD i 0)
    (by rw [List.getD_eq_getElem _ _ hi]; exact List.getElem_mem hi)
  rw [Bool.and_eq_true, decide_eq_true_eq, decide_eq_true_eq] at hb
  omega

theorem sameIndexSet_range (n : ℕ) :
    sameIndexSet ((List.range n).map Int.ofNat) n = true := by
  rw [sameIndexSet, Bool.and_eq_true]
  constructor
  · rw [List.all_eq_true]
    intro k hk
    rw [List.mem_range] at hk
    have : (k : ℤ) ∈ (List.range n).map Int.ofNat :=
      List.mem_map.mpr ⟨k, List.mem_range.mpr hk, rfl⟩
    simpa [List.contains] using this
  · rw [List.all_eq_true]
    intro x hx
    obtain ⟨k, hk, rfl⟩ := List.mem_map.mp hx
    rw [List.mem_range] at hk
    simp only [Bool.and_eq_true, decide_eq_true_eq, Int.ofNat_eq_coe]
    omega

/-! ### Claim C7 -/

/-- C7: `reorder(new_order)` raises `InvalidPermutation` unless
`new_order` has the current length and its elements as a set are
exactly `{0, …, n-1}`; on success the new current is the gather
`current[new_order[i]]`.  Reordering by the identity permutation
returns the same element sequence, and reordering by a permutation
followed by its inverse restores the original order.  The success
conclusions hold for controls satisfying the control invariant (true
of every control the API can mint). -/
theorem C7_reorder :
    (∀ (c : Array) (new_order : List ℤ),
      new_order.length ≠ c.current.length →
      c.reorder new_order = .error (.invalidPermutation c.current.length
        (some new_order.length)))
    ∧ (∀ (c : Array) (new_order : List ℤ),
      new_order.length = c.current.length →
      sameIndexSet new_order c.current.length = false →
      c.reorder new_order
        = .error (.invalidPermutation c.current.length none))
    ∧ (∀ (c : Array) (new_order : List ℤ), c.Valid →
      new_order.length = c.current.length →
      sameIndexSet new_order c.current.length = true →
      ∃ c2, c.reorder new_order = .ok c2 ∧ c2.definition = c.definition ∧
        c2.current.length = c.current.length ∧
        ∀ i, i < c.current.length →
          c2.current.getD i (.vNum 0)
            = c.current.getD (new_order.getD i 0).toNat (.vNum 0))
    ∧ (∀ c : Array, c.Valid →
      c.reorder ((List.range c.current.length).map Int.ofNat)
        = .ok ⟨c.definition, c.current⟩)
    ∧ (∀ (c : Array) (ord inv : List ℤ), c.Valid →
      ord.length = c.current.length →
      sameIndexSet ord c.current.length = true →
      inv.length = c.current.length →
      sameIndexSet inv c.current.length = true →
      (∀ i, i < c.current.length →
        ord.getD (inv.getD i 0).toNat 0 = (i : ℤ)) →
      ∃ c1 c2, c.reorder ord = .ok c1 ∧ c1.reorder inv = .ok c2 ∧
        c2.current = c.current) := by
  refine ⟨?_, ?_, ?_, ?_, ?_⟩
  · intro c new_order hne
    unfold Array.reorder
    rw [if_pos hne]
  · intro c new_order hlen hset
    unfold Array.reorder
    rw [if_neg (by simp [hlen]), if_pos (by simp [hset])]
  · intro c new_order hv hlen hset
    refine ⟨_, reorder_ok hv hlen hset, rfl, by simp [hlen], ?_⟩
    intro i hi
    exact gather_getD i (by omega)
  · intro c hv
    have h := reorder_ok hv (by simp) (sameIndexSet_range c.current.length)
    rw [h]
    have hg : ((List.range c.current.length).map Int.ofNat).map
        (fun i => c.current.getD i.toNat (.vNum 0)) = c.current := by
      rw [List.map_map]
      exact map_range_getD c.current (.vNum 0)
    rw [hg]
  · intro c ord inv hv hlo hso hli hsi hinv
    have h1 := reorder_ok hv hlo hso
    set γ := ord.map (fun i => c.current.getD i.toNat (.vNum 0)) with hγ
    have hγlen : γ.length = c.current.length := by simp [hγ, hlo]
    have hv1 : Vibecontrols.Array.Valid ⟨c.definition, γ⟩ := by
      rw [arrayValid_iff]
      exact validateList_perm ((arrayValid_iff (c := c)).mp hv)
        (gather_perm hlo hso)
    have h2 := reorder_ok (c := ⟨c.definition, γ⟩) hv1
      (by simpa [hγlen] using hli) (by simpa [hγlen] using hsi)
    refine ⟨⟨c.definition, γ⟩, _, h1, h2, ?_⟩
    apply List.ext_getElem (by simp [hli, hγlen])
    intro i h1i h2i
    have hiT : i < inv.length := by omega
    have hiN : i < c.current.length := by omega
    rw [← List.getD_eq_getElem _ (Value.vNum 0) h1i,
      ← List.getD_eq_getElem _ (Value.vNum 0) h2i]
    rw [gather_getD i hiT]
    have hbT : (inv.getD i 0).toNat < c.current.length :=
      sameIndexSet_bound hsi hiT
    rw [show γ.getD ((inv.getD i 0).toNat) (Value.vNum 0)
        = c.current.getD ((ord.getD ((inv.getD i 0).toNat) 0).toNat)
          (Value.vNum 0) from gather_getD _ (by omega)]
    rw [hinv i hiN]
    simp

end Vibecontrols

namespace Vibecontrols

/-- C7 witness: over a three-element boolean array — a wrong-length
order and a non-permutation order raise `InvalidPermutation`; the
gather result for `[2,0,1]` matches the spec's scenario; the identity
permutation preserves the sequence; `[1,2,0]` is inverse to `[2,0,1]`
and restores the original order. -/
theorem C7_witness :
    Array.reorder
      ⟨ArrayDefinition.mk (BooleanDefinition.validate_value ⟨false, "b"⟩)
        0 none [] true, [.vBool true, .vBool false, .vBool true]⟩ [0, 1]
      = .error (.invalidPermutation 3 (some 2))
    ∧ Array.reorder
      ⟨ArrayDefinition.mk (BooleanDefinition.validate_value ⟨false, "b"⟩)
        0 none [] true, [.vBool true, .vBool false, .vBool true]⟩ [0, 0, 1]
      = .error (.invalidPermutation 3 none)
    ∧ (∃ c2, Array.reorder
      ⟨ArrayDefinition.mk (BooleanDefinition.validate_value ⟨false, "b"⟩)
        0 none [] true, [.vBool true, .vBool false, .vBool true]⟩ [2, 0, 1]
      = .ok c2 ∧ c2.current.length = 3)
    ∧ Array.reorder
      ⟨ArrayDefinition.mk (BooleanDefinition.validate_value ⟨false, "b"⟩)
        0 none [] true, [.vBool true, .vBool false, .vBool true]⟩ [0, 1, 2]
      = .ok ⟨ArrayDefinition.mk (BooleanDefinition.validate_value
          ⟨false, "b"⟩) 0 none [] true,
          [.vBool true, .vBool false, .vBool true]⟩
    ∧ (∃ c1 c2, Array.reorder
      ⟨ArrayDefinition.mk (BooleanDefinition.validate_value ⟨false, "b"⟩)
        0 none [] true, [.vBool true, .vBool false, .vBool true]⟩ [2, 0, 1]
      = .ok c1 ∧ c1.reorder [1, 2, 0] = .ok c2 ∧
      c2.current = [.vBool true, .vBool false, .vBool true]) := by
  have hval : Vibecontrols.Array.Valid
      ⟨ArrayDefinition.mk (BooleanDefinition.validate_value ⟨false, "b"⟩)
        0 none [] true, [.vBool true, .vBool false, .vBool true]⟩ := rfl
  refine ⟨?_, ?_, ?_, ?_, ?_⟩
  · exact C7_reorder.1 _ [0, 1] (by decide)
  · exact C7_reorder.2.1 _ [0, 0, 1] (by decide) (by decide)
  · obtain ⟨c2, hc2, -, hlen, -⟩ := C7_reorder.2.2.1 _ [2, 0, 1] hval
      (by decide) (by decide)
    exact ⟨c2, hc2, hlen⟩
  · exact C7_reorder.2.2.2.1 _ hval
  · exact C7_reorder.2.2.2.2 _ [2, 0, 1] [1, 2, 0] hval (by decide)
      (by decide) (by decide) (by decide)
      (by
        intro i hi
        have hi3 : i < 3 := hi
        have : i = 0 ∨ i = 1 ∨ i = 2 := by omega
        rcases this with rfl | rfl | rfl <;> decide)

end Vibecontrols

namespace Vibecontrols

theorem bool_ok_iff {d : BooleanDefinition} {v : Value} {b : Bool} :
    d.validate_value v = .ok (.vBool b) ↔ d.validateBool v = .ok b := by
  unfold BooleanDefinition.validate_value
  cases h : d.validateBool v <;> simp [h, Except.map]

theorem textCopy_valid {c : Text} {v : Value} {c' : Text}
    (h : c.copy v = .ok c') : c'.Valid := by
  unfold Text.copy at h
  cases hv : c.definition.validateStr v with
  | error e => rw [hv] at h; exact absurd h (by simp)
  | ok s =>
    rw [hv] at h
    obtain rfl : c' = ⟨c.definition, s⟩ := by simpa [eq_comm] using h
    rw [Text.Valid, text_ok_iff]
    exact validateStr_idem hv

theorem booleanCopy_valid {c : Boolean} {v : Value} {c' : Boolean}
    (h : c.copy v = .ok c') : c'.Valid := by
  unfold Boolean.copy at h
  cases hv : c.definition.validateBool v with
  | error e => rw [hv] at h; exact absurd h (by simp)
  | ok b =>
    rw [hv] at h
    obtain rfl : c' = ⟨c.definition, b⟩ := by simpa [eq_comm] using h
    rw [Boolean.Valid, bool_ok_iff]
    exact validateBool_idem hv

theorem intervalCopy_valid {c : Interval} {v : Value} {c' : Interval}
    (h : c.copy v = .ok c') : c'.Valid := by
  unfold Interval.copy at h
  cases hv : c.definition.validateNum v with
  | error e => rw [hv] at h; exact absurd h (by simp)
  | ok q =>
    rw [hv] at h
    obtain rfl : c' = ⟨c.definition, q⟩ := by simpa [eq_comm] using h
    rw [Interval.Valid, interval_ok_iff]
    exact validateNum_idem hv

theorem optionsCopy_valid {c : Options} {v : Value} {c' : Options}
    (h : c.copy v = .ok c') : c'.Valid := by
  unfold Options.copy at h
  cases hv : c.definition.validate_value v with
  | error e => rw [hv] at h; exact absurd h (by simp)
  | ok w =>
    rw [hv] at h
    obtain rfl : c' = ⟨c.definition, w⟩ := by simpa [eq_comm] using h
    exact optionsValidate_idem hv

theorem arrayCopy_valid {c : Array} {v : Value} {c' : Array}
    (hid : Idem c.definition.elemValidate) (h : c.copy v = .ok c') :
    c'.Valid := by
  unfold Array.copy at h
  cases hv : c.definition.validateList v with
  | error e => rw [hv] at h; exact absurd h (by simp)
  | ok xs =>
    rw [hv] at h
    obtain rfl : c' = ⟨c.definition, xs⟩ := by simpa [eq_comm] using h
    rw [arrayValid_iff]
    exact validateList_idem hid hv

end Vibecontrols

namespace Vibecontrols

/-! ### Claim C1 -/

/-- C1 counterexample: `TextDefinition(default='', count_min=3)`
constructs, `produce_control()` succeeds and returns a control whose
`current` is `""` — and `validate_value` rejects that very value, so
the control invariant is observably false immediately after
`produce_control` without an explicit initial value. -/
theorem C1_counterexample :
    TextDefinition.make "" (some 3) none "Value must be a string"
      = .ok ⟨"", some 3, none, "Value must be a string"⟩
    ∧ (TextDefinition.mk "" (some 3) none
        "Value must be a string").produce_control none
      = .ok ⟨⟨"", some 3, none, "Value must be a string"⟩, ""⟩
    ∧ (TextDefinition.mk "" (some 3) none
        "Value must be a string").validate_value (.vStr "")
      = .error (.sizeConstraintViolation (some 3) none 0
          "Text character count") :=
  ⟨rfl, rfl, rfl⟩

/-- C1 (corrected): the control invariant — `current` satisfies
`definition.validate_value` and is returned by it — holds after
`produce_control` with an explicit initial value and after every
transition operation (`copy`, `toggle`, `clear`, `increment`,
`decrement`, `cycle_next`, `cycle_previous`, `append`, `insert_at`,
`remove_at`, `reorder`); for `produce_control` without an initial
value it holds unconditionally for Boolean, Options and Array, but for
Text and Interval only when the stored default itself satisfies
`validate_value`, because those two use the default unvalidated.
Array conclusions assume the element validator is idempotent, which
holds for all five built-in types. -/
theorem C1_control_invariant :
    (∀ (d : TextDefinition) (v : Value) (c : Text),
      d.produce_control (some v) = .ok c → c.Valid)
    ∧ (∀ (d : TextDefinition) (c : Text), d.produce_control none = .ok c →
      d.validate_value (.vStr d.default) = .ok (.vStr d.default) → c.Valid)
    ∧ (∀ (c : Text) (v : Value) (c' : Text), c.copy v = .ok c' → c'.Valid)
    ∧ (∀ (c c' : Text), c.clear = .ok c' → c'.Valid)
    ∧ (∀ (d : BooleanDefinition) (v : Value) (c : Boolean),
      d.produce_control (some v) = .ok c → c.Valid)
    ∧ (∀ (d : BooleanDefinition) (c : Boolean),
      d.produce_control none = .ok c → c.Valid)
    ∧ (∀ (c : Boolean) (v : Value) (c' : Boolean),
      c.copy v = .ok c' → c'.Valid)
    ∧ (∀ (c c' : Boolean), c.toggle = .ok c' → c'.Valid)
    ∧ (∀ (d : IntervalDefinition) (v : Value) (c : Interval),
      d.produce_control (some v) = .ok c → c.Valid)
    ∧ (∀ (d : IntervalDefinition) (c : Interval),
      d.produce_control none = .ok c →
      d.validate_value (.vNum d.default) = .ok (.vNum d.default) → c.Valid)
    ∧ (∀ (c : Interval) (v : Value) (c' : Interval),
      c.copy v = .ok c' → c'.Valid)
    ∧ (∀ (c c' : Interval), c.increment = .ok c' → c'.Valid)
    ∧ (∀ (c c' : Interval), c.decrement = .ok c' → c'.Valid)
    ∧ (∀ (d : OptionsDefinition) (v : Value) (c : Options),
      d.produce_control (some v) = .ok c → c.Valid)
    ∧ (∀ (d : OptionsDefinition) (c : Options),
      d.produce_control none = .ok c → c.Valid)
    ∧ (∀ (c : Options) (v : Value) (c' : Options),
      c.copy v = .ok c' → c'.Valid)
    ∧ (∀ (c c' : Options), c.cycle_next = .ok c' → c'.Valid)
    ∧ (∀ (c c' : Options), c.cycle_previous = .ok c' → c'.Valid)
    ∧ (∀ (d : ArrayDefinition) (v : Value) (c : Array),
      Idem d.elemValidate → d.produce_control (some v) = .ok c → c.Valid)
    ∧ (∀ (d : ArrayDefinition) (c : Array), Idem d.elemValidate →
      d.produce_control none = .ok c → c.Valid)
    ∧ (∀ (c : Array) (v : Value) (c' : Array),
      Idem c.definition.elemValidate → c.copy v = .ok c' → c'.Valid)
    ∧ (∀ (c : Array) (x : Value) (c' : Array),
      Idem c.definition.elemValidate → c.append x = .ok c' → c'.Valid)
    ∧ (∀ (c : Array) (i : ℤ) (x : Value) (c' : Array),
      Idem c.definition.elemValidate → c.insert_at i x = .ok c' → c'.Valid)
    ∧ (∀ (c : Array) (i : ℤ) (c' : Array),
      Idem c.definition.elemValidate → c.remove_at i = .ok c' → c'.Valid)
    ∧ (∀ (c : Array) (no : List ℤ) (c' : Array),
      Idem c.definition.elemValidate → c.reorder no = .ok c' → c'.Valid) := by
  refine ⟨?_, ?_, ?_, ?_, ?_, ?_, ?_, ?_, ?_, ?_, ?_, ?_, ?_, ?_, ?_, ?_,
    ?_, ?_, ?_, ?_, ?_, ?_, ?_, ?_, ?_⟩
  · intro d v c h
    simp only [TextDefinition.produce_control] at h
    cases hv : d.validateStr v with
    | error e => rw [hv] at h; exact absurd h (by simp)
    | ok s =>
      rw [hv] at h
      obtain rfl : c = ⟨d, s⟩ := by simpa [eq_comm] using h
      rw [Text.Valid, text_ok_iff]
      exact validateStr_idem hv
  · intro d c h hdef
    simp only [TextDefinition.produce_control] at h
    obtain rfl : c = ⟨d, d.default⟩ := by simpa [eq_comm] using h
    exact hdef
  · intro c v c' h
    exact textCopy_valid h
  · intro c c' h
    exact textCopy_valid h
  · intro d v c h
    simp only [BooleanDefinition.produce_control] at h
    cases hv : d.validateBool v with
    | error e => rw [hv] at h; exact absurd h (by simp)
    | ok b =>
      rw [hv] at h
      obtain rfl : c = ⟨d, b⟩ := by simpa [eq_comm] using h
      rw [Boolean.Valid, bool_ok_iff]
      rfl
  · intro d c h
    simp only [BooleanDefinition.produce_control] at h
    obtain rfl : c = ⟨d, d.default⟩ := by simpa [eq_comm] using h
    rw [Boolean.Valid, bool_ok_iff]
    rfl
  · intro c v c' h
    exact booleanCopy_valid h
  · intro c c' h
    exact booleanCopy_valid h
  · intro d v c h
    simp only [IntervalDefinition.produce_control] at h
    cases hv : d.validateNum v with
    | error e => rw [hv] at h; exact absurd h (by simp)
    | ok q =>
      rw [hv] at h
      obtain rfl : c = ⟨d, q⟩ := by simpa [eq_comm] using h
      rw [Interval.Valid, interval_ok_iff]
      exact validateNum_idem hv
  · intro d c h hdef
    simp only [IntervalDefinition.produce_control] at h
    obtain rfl : c = ⟨d, d.default⟩ := by simpa [eq_comm] using h
    exact hdef
  · intro c v c' h
    exact intervalCopy_valid h
  · intro c c' h
    unfold Interval.increment at h
    cases hg : c.definition.grade with
    | none => rw [hg] at h; exact absurd h (by simp)
    | some g =>
      rw [hg] at h
      simp only at h
      exact intervalCopy_valid h
  · intro c c' h
    unfold Interval.decrement at h
    cases hg : c.definition.grade with
    | none => rw [hg] at h; exact absurd h (by simp)
    | some g =>
      rw [hg] at h
      simp only at h
      exact intervalCopy_valid h
  · intro d v c h
    simp only [OptionsDefinition.produce_control] at h
    cases hv : d.validate_value v with
    | error e => rw [hv] at h; exact absurd h (by simp)
    | ok w =>
      rw [hv] at h
      obtain rfl : c = ⟨d, w⟩ := by simpa [eq_comm] using h
      exact optionsValidate_idem hv
  · intro d c h
    simp only [OptionsDefinition.produce_control] at h
    cases hv : d.validate_value d.default with
    | error e => rw [hv] at h; exact absurd h (by simp)
    | ok w =>
      rw [hv] at h
      obtain rfl : c = ⟨d, w⟩ := by simpa [eq_comm] using h
      exact optionsValidate_idem hv
  · intro c v c' h
    exact optionsCopy_valid h
  · intro c c' h
    unfold Options.cycle_next at h
    by_cases ham : c.definition.allow_multiple = true
    · rw [if_pos ham] at h
      exact absurd h (by simp)
    · rw [if_neg ham] at h
      cases hf : c.definition.choices.findIdx?
          (fun ch => pyEq ch c.current) with
      | none => rw [hf] at h; exact absurd h (by simp)
      | some i =>
        rw [hf] at h
        simp only at h
        exact optionsCopy_valid h
  · intro c c' h
    unfold Options.cycle_previous at h
    by_cases ham : c.definition.allow_multiple = true
    · rw [if_pos ham] at h
      exact absurd h (by simp)
    · rw [if_neg ham] at h
      cases hf : c.definition.choices.findIdx?
          (fun ch => pyEq ch c.current) with
      | none => rw [hf] at h; exact absurd h (by simp)
      | some i =>
        rw [hf] at h
        simp only at h
        exact optionsCopy_valid h
  · intro d v c hid h
    simp only [ArrayDefinition.produce_control] at h
    cases hv : d.validateList v with
    | error e => rw [hv] at h; exact absurd h (by simp)
    | ok xs =>
      rw [hv] at h
      obtain rfl : c = ⟨d, xs⟩ := by simpa [eq_comm] using h
      rw [arrayValid_iff]
      exact validateList_idem hid hv
  · intro d c hid h
    simp only [ArrayDefinition.produce_control] at h
    cases hv : d.validateList (.vTuple d.default_elements) with
    | error e => rw [hv] at h; exact absurd h (by simp)
    | ok xs =>
      rw [hv] at h
      obtain rfl : c = ⟨d, xs⟩ := by simpa [eq_comm] using h
      rw [arrayValid_iff]
      exact validateList_idem hid hv
  · intro c v c' hid h
    exact arrayCopy_valid hid h
  · intro c x c' hid h
    exact arrayCopy_valid hid h
  · intro c i x c' hid h
    unfold Array.insert_at at h
    split at h
    · exact arrayCopy_valid hid h
    · exact absurd h (by simp)
  · intro c i c' hid h
    unfold Array.remove_at at h
    split at h
    · exact arrayCopy_valid hid h
    · exact absurd h (by simp)
  · intro c no c' hid h
    unfold Array.reorder at h
    split at h
    · exact absurd h (by simp)
    · split at h
      · exact absurd h (by simp)
      · exact arrayCopy_valid hid h

end Vibecontrols

namespace Vibecontrols

theorem boolean_validate_idem (bd : BooleanDefinition) :
    Idem bd.validate_value := by
  intro v w h
  unfold BooleanDefinition.validate_value at h
  cases hv : bd.validateBool v with
  | error e => rw [hv] at h; exact absurd h (by simp [Except.map])
  | ok b =>
    rw [hv] at h
    obtain rfl : w = .vBool b := by simpa [Except.map, eq_comm] using h
    rw [bool_ok_iff]
    exact validateBool_idem hv

/-- C1 witness: representative instances — a Text control minted from a
valid default, a toggled Boolean, an incremented Interval, a cycled
single-select Options, and an Array after `append` (with the Boolean
element validator, which is idempotent) all satisfy the invariant. -/
theorem C1_witness :
    Text.Valid ⟨⟨"abc", some 3, some 5, "m"⟩, "abc"⟩
    ∧ Boolean.Valid ⟨⟨false, "m"⟩, true⟩
    ∧ Interval.Valid ⟨⟨0, 10, 0, some 5, "m"⟩, 0 + 5⟩
    ∧ Options.Valid ⟨⟨[.vStr "a", .vStr "b"], .vStr "a", false, "m"⟩,
        .vStr "b"⟩
    ∧ Vibecontrols.Array.Valid
        ⟨⟨BooleanDefinition.validate_value ⟨false, "m"⟩, 0, some 2, [],
          true⟩, [.vBool true, .vBool false]⟩ := by
  refine ⟨?_, ?_, ?_, ?_, ?_⟩
  · exact C1_control_invariant.2.1 ⟨"abc", some 3, some 5, "m"⟩
      ⟨⟨"abc", some 3, some 5, "m"⟩, "abc"⟩ rfl rfl
  · exact C1_control_invariant.2.2.2.2.2.2.2.1
      ⟨⟨false, "m"⟩, false⟩ ⟨⟨false, "m"⟩, true⟩ rfl
  · apply C1_control_invariant.2.2.2.2.2.2.2.2.2.2.2.1
      ⟨⟨0, 10, 0, some 5, "m"⟩, 0⟩ ⟨⟨0, 10, 0, some 5, "m"⟩, 0 + 5⟩
    have hs : stepOKb ⟨0, 10, 0, some 5, "m"⟩ (0 + 5) = true := by
      simp only [stepOKb, decide_eq_true_eq]
      have h1 : ((0 : ℚ) + 5 - 0) / 5 = ((1 : ℤ) : ℚ) := by
        push_cast
        norm_num
      rw [h1, pyRound_intCast]
      norm_num [FLOAT_EPSILON]
    show Interval.copy _ (.vNum (0 + 5)) = _
    unfold Interval.copy
    rw [validateNum_of (by norm_num) (by norm_num) hs]
  · exact C1_control_invariant.2.2.2.2.2.2.2.2.2.2.2.2.2.2.2.2.1
      ⟨⟨[.vStr "a", .vStr "b"], .vStr "a", false, "m"⟩, .vStr "a"⟩
      ⟨⟨[.vStr "a", .vStr "b"], .vStr "a", false, "m"⟩, .vStr "b"⟩ rfl
  · exact C1_control_invariant.2.2.2.2.2.2.2.2.2.2.2.2.2.2.2.2.2.2.2.2.2.1
      ⟨⟨BooleanDefinition.validate_value ⟨false, "m"⟩, 0, some 2, [], true⟩,
        [.vBool true]⟩
      (.vBool false)
      ⟨⟨BooleanDefinition.validate_value ⟨false, "m"⟩, 0, some 2, [], true⟩,
        [.vBool true, .vBool false]⟩
      (boolean_validate_idem ⟨false, "m"⟩) rfl

end Vibecontrols
